import Mathlib

/-!
Verification development for the spatial simulation core of the DUUM
sector engine: the world grid (`World`, from the World module), the
visibility / fog-of-war engine (`Visibility`), the circular-collision
movement solver (`Movement`), and the bucketed entity index
(`EManager`).

The JavaScript source is embedded shallowly:
* JS numbers (IEEE doubles) are modelled as exact rationals `ℚ`;
* JS `Map` / plain objects are association lists with `Map.set`
  (replace-or-append) semantics; JS `Set`s of string keys such as
  `"gx,gy"` are duplicate-free lists of `ℤ × ℤ` pairs kept in insertion
  order (the string key and the coordinate pair are in bijection);
* the transcendental functions of JS `Math` (`cos`, `sin`, `sqrt`) and
  the constant `Math.PI` are passed as an explicit `JsMath` record, so
  theorems quantify over every interpretation, including the actual
  IEEE double implementations;
* `while` / `for` loops over fractional step sizes become structural
  recursion on an explicit iteration count equal to the number of times
  the JS loop body runs;
* a JS expression that would throw (reading `.walkable` of `undefined`
  when the default sector type is unregistered, or indexing a
  malformed grid) is modelled by `Option`; theorems that depend on the
  non-crashing cases carry an explicit well-formedness hypothesis.
-/

/-- Integer range `[lo, hi]` as a list, empty when `hi < lo`. -/
def intRange (lo hi : ℤ) : List ℤ :=
  (List.range (hi + 1 - lo).toNat).map (fun (n : ℕ) => lo + (n : ℤ))

theorem mem_intRange {lo hi a : ℤ} : a ∈ intRange lo hi ↔ lo ≤ a ∧ a ≤ hi := by
  unfold intRange
  rw [List.mem_map]
  constructor
  · rintro ⟨n, hn, rfl⟩
    rw [List.mem_range] at hn
    omega
  · rintro ⟨h1, h2⟩
    refine ⟨(a - lo).toNat, ?_, by omega⟩
    rw [List.mem_range]
    omega

/-- Lookup in an association list, modelling JS `Map.get` (returns
`undefined`, i.e. `none`, for a missing key). -/
def alGet {κ α : Type} [DecidableEq κ] : List (κ × α) → κ → Option α
  | [], _ => none
  | (k, v) :: t, key => if k = key then some v else alGet t key

/-- Insertion into an association list, modelling JS `Map.set`:
replace the value in place if the key is present, append otherwise. -/
def alSet {κ α : Type} [DecidableEq κ] : List (κ × α) → κ → α → List (κ × α)
  | [], key, v => [(key, v)]
  | (k, w) :: t, key, v => if k = key then (k, v) :: t else (k, w) :: alSet t key v

/-- Deletion from an association list, modelling JS `Map.delete`. -/
def alDel {κ α : Type} [DecidableEq κ] (l : List (κ × α)) (key : κ) : List (κ × α) :=
  l.filter (fun p => decide (p.1 ≠ key))

/-- In-place update of the value stored under a key, modelling JS code
that mutates an object held in a `Map` without touching the map
structure. -/
def alUpdate {κ α : Type} [DecidableEq κ] (l : List (κ × α)) (key : κ) (f : α → α) :
    List (κ × α) :=
  l.map (fun p => if p.1 = key then (p.1, f p.2) else p)

theorem alGet_mem {κ α : Type} [DecidableEq κ] {l : List (κ × α)} {k : κ} {v : α}
    (h : alGet l k = some v) : (k, v) ∈ l := by
  induction l with
  | nil => simp [alGet] at h
  | cons p t ih =>
    rw [alGet] at h
    by_cases hk : p.1 = k
    · rw [if_pos hk] at h
      have hv := Option.some.inj h
      rw [List.mem_cons]
      left
      rw [← hk, ← hv]
    · rw [if_neg hk] at h
      exact List.mem_cons_of_mem _ (ih h)

theorem alGet_of_mem_nodup {κ α : Type} [DecidableEq κ] {l : List (κ × α)} {k : κ} {v : α}
    (h : (k, v) ∈ l) (hnd : (l.map Prod.fst).Nodup) : alGet l k = some v := by
  induction l with
  | nil => simp at h
  | cons p t ih =>
    simp only [List.map_cons, List.nodup_cons] at hnd
    rcases List.mem_cons.mp h with h1 | h1
    · rw [← h1, alGet, if_pos rfl]
    · rw [alGet]
      have hne : p.1 ≠ k := by
        intro hk
        exact hnd.1 (hk ▸ List.mem_map.mpr ⟨(k, v), h1, rfl⟩)
      rw [if_neg hne]
      exact ih h1 hnd.2

/-! ## Sector types and the world grid (World module) -/

/-- A registered sector-type record: the result of merging a
definition over the fixed defaults in `registerSectorType`. -/
structure SectorType where
  floor : ℚ
  ceiling : ℚ
  walkable : Bool
  floorColor : ℚ × ℚ × ℚ
  wallColor : ℚ × ℚ × ℚ
  ceilingColor : ℚ × ℚ × ℚ
  name : String
  solid : Bool
  friction : ℚ
  damage : ℚ
  light : ℚ
  properties : List (String × ℚ)
  deriving DecidableEq

/-- A partial sector-type definition as passed by callers to
`registerSectorType`; absent fields take the defaults. -/
structure SectorDef where
  floor : Option ℚ := none
  ceiling : Option ℚ := none
  walkable : Option Bool := none
  floorColor : Option (ℚ × ℚ × ℚ) := none
  wallColor : Option (ℚ × ℚ × ℚ) := none
  ceilingColor : Option (ℚ × ℚ × ℚ) := none
  name : Option String := none
  solid : Option Bool := none
  friction : Option ℚ := none
  damage : Option ℚ := none
  light : Option ℚ := none
  properties : Option (List (String × ℚ)) := none
  deriving DecidableEq

/-- The spread `{ ...defaults, ...definition }` of `registerSectorType`. -/
def mergeDefaults (key : String) (d : SectorDef) : SectorType where
  floor := d.floor.getD 0
  ceiling := d.ceiling.getD 1
  walkable := d.walkable.getD true
  floorColor := d.floorColor.getD (128, 128, 128)
  wallColor := d.wallColor.getD (160, 160, 160)
  ceilingColor := d.ceilingColor.getD (100, 100, 100)
  name := d.name.getD key.toUpper
  solid := d.solid.getD false
  friction := d.friction.getD 1
  damage := d.damage.getD 0
  light := d.light.getD 1
  properties := d.properties.getD []

/-- The definition of the always-registered `"void"` sector type from
`World._init`. -/
def voidDef : SectorDef where
  floor := some (-10)
  ceiling := some (-10)
  walkable := some false
  floorColor := some (20, 20, 25)
  wallColor := some (40, 40, 50)
  ceilingColor := some (15, 15, 20)
  name := some "VOID"
  solid := some true

/-- A named rectangular region with normalized bounds. -/
structure Region where
  name : String
  x1 : ℚ
  y1 : ℚ
  x2 : ℚ
  y2 : ℚ
  properties : List (String × ℚ)
  deriving DecidableEq

/-- The world grid: dimensions, default sector key, row-major grid of
sector-type keys, the sector-type registry and the region table.
Mirrors the data fields of the JS `World` class (the event-listener
lists and the entity index attached by the entity manager do not
affect any grid query and are not part of the state). -/
structure World where
  width : ℤ
  height : ℤ
  defaultSector : String
  grid : List (List String)
  sectorTypes : List (String × SectorType)
  regions : List (String × Region)
  deriving DecidableEq

namespace World

/-- `registerSectorType(key, definition)`. -/
def registerSectorType (w : World) (key : String) (d : SectorDef) : World :=
  { w with sectorTypes := alSet w.sectorTypes key (mergeDefaults key d) }

/-- The constructor `new World(config)` followed by `_init`: a grid
filled with the default sector key and the `"void"` sector type
registered. -/
def create (width height : ℤ) (defaultSector : String) : World :=
  registerSectorType
    { width := width
      height := height
      defaultSector := defaultSector
      grid := List.replicate height.toNat (List.replicate width.toNat defaultSector)
      sectorTypes := []
      regions := [] }
    "void" voidDef

/-- The bounds test `gx < 0 || gx >= this.width || gy < 0 || gy >= this.height`. -/
def outOfBounds (w : World) (gx gy : ℤ) : Bool :=
  decide (gx < 0) || decide (gx ≥ w.width) || decide (gy < 0) || decide (gy ≥ w.height)

/-- The raw grid read `this.grid[gy][gx]`; `none` models the JS crash
on a malformed grid (index out of the stored array's range). -/
def cellKey? (w : World) (gx gy : ℤ) : Option String :=
  (w.grid.get? gy.toNat).bind (fun row => row.get? gx.toNat)

/-- `getSector(x, y)`: floor to cell indices, fall back to the default
sector type out of bounds or for an unregistered key.  `none` models a
JS `undefined` result (default sector type unregistered) or a crash on
a malformed grid. -/
def getSector (w : World) (x y : ℚ) : Option SectorType :=
  let gx := ⌊x⌋
  let gy := ⌊y⌋
  if w.outOfBounds gx gy then alGet w.sectorTypes w.defaultSector
  else
    match w.cellKey? gx gy with
    | none => none
    | some key => (alGet w.sectorTypes key).orElse (fun _ => alGet w.sectorTypes w.defaultSector)

/-- `getSectorKey(gx, gy)`. -/
def getSectorKey (w : World) (gx gy : ℤ) : Option String :=
  if w.outOfBounds gx gy then some w.defaultSector else w.cellKey? gx gy

/-- `isWalkable(x, y)` as exposed: `getSector(x, y).walkable`; `none`
models the JS `TypeError` when `getSector` yields `undefined`. -/
def isWalkable (w : World) (x y : ℚ) : Option Bool :=
  (w.getSector x y).map SectorType.walkable

/-- Total variant of `isWalkable` used by the internal marching loops;
the `false` result on the `none` case stands for the JS crash, which
well-formedness hypotheses rule out where it matters. -/
def isWalkableB (w : World) (x y : ℚ) : Bool :=
  ((w.getSector x y).map SectorType.walkable).getD false

/-- `setSector(gx, gy, key)`: bounded mutation that reports whether the
cell actually changed. -/
def setSector (w : World) (gx gy : ℤ) (key : String) : World × Bool :=
  if w.outOfBounds gx gy then (w, false)
  else if w.cellKey? gx gy = some key then (w, false)
  else
    ({ w with
        grid := w.grid.mapIdx (fun rowY row =>
          if (rowY : ℤ) = gy then row.mapIdx (fun colX k => if (colX : ℤ) = gx then key else k)
          else row) },
      true)

/-- `fillRect(x1, y1, x2, y2, key)`: clamped rectangular fill. -/
def fillRect (w : World) (x1 y1 x2 y2 : ℤ) (key : String) : World :=
  let minX := max 0 (min x1 x2)
  let maxX := min (w.width - 1) (max x1 x2)
  let minY := max 0 (min y1 y2)
  let maxY := min (w.height - 1) (max y1 y2)
  { w with
      grid := w.grid.mapIdx (fun rowY row =>
        if minY ≤ (rowY : ℤ) ∧ (rowY : ℤ) ≤ maxY then
          row.mapIdx (fun colX k => if minX ≤ (colX : ℤ) ∧ (colX : ℤ) ≤ maxX then key else k)
        else row) }

/-- `countWalkable()`. -/
def countWalkable (w : World) : ℕ :=
  ((List.range w.height.toNat).flatMap (fun y =>
      (List.range w.width.toNat).map (fun x => (x, y)))).countP
    (fun p => w.isWalkableB (p.1 : ℚ) (p.2 : ℚ))

/-- The structural snapshot produced by `serialize()`: width, height,
default key, full sector-type registry, row-major grid of keys and the
region table. -/
structure Snapshot where
  width : ℤ
  height : ℤ
  defaultSector : String
  sectorTypes : List (String × SectorType)
  grid : List (List String)
  regions : List (String × Region)
  deriving DecidableEq

/-- `serialize()`.  `Object.fromEntries` and the per-row copies are
value copies; key-based lookups are insensitive to the entry order, so
the registry and region table are carried over as-is. -/
def serialize (w : World) : Snapshot where
  width := w.width
  height := w.height
  defaultSector := w.defaultSector
  sectorTypes := w.sectorTypes
  grid := w.grid
  regions := w.regions

/-- `deserialize(data)`: replaces the grid fields of the receiver from
the snapshot. -/
def deserialize (w : World) (data : Snapshot) : World :=
  { w with
      width := data.width
      height := data.height
      defaultSector := data.defaultSector
      sectorTypes := data.sectorTypes
      grid := data.grid
      regions := data.regions }

/-- Well-formedness of a world: the default sector type is registered
and the stored grid has the advertised dimensions.  Guaranteed by the
constructor and by the documented SectorGrid invariant (a default
sector type is always present). -/
def wfB (w : World) : Bool :=
  (alGet w.sectorTypes w.defaultSector).isSome &&
    (w.grid.length == w.height.toNat) &&
    w.grid.all (fun row => row.length == w.width.toNat)

end World

/-! ## The JS Math functions -/

/-- The transcendental functions and the circle constant of JS `Math`,
passed explicitly so that every theorem is parametric in their
interpretation (and in particular holds for the actual IEEE double
implementations, which return rational values). -/
structure JsMath where
  cos : ℚ → ℚ
  sin : ℚ → ℚ
  sqrt : ℚ → ℚ
  pi : ℚ

/-- The exact rational value of the IEEE double `Math.PI`. -/
def jsPI : ℚ := 884279719003555 / 281474976710656

/-- A square root on `ℚ` that is exact on perfect squares
(`ratSqrt 1 = 1`); used to instantiate `JsMath.sqrt` in concrete runs,
all of which only evaluate it at perfect squares, where it agrees with
the double `Math.sqrt`. -/
def ratSqrt (q : ℚ) : ℚ :=
  ((Nat.sqrt q.num.toNat : ℤ) : ℚ) / ((Nat.sqrt q.den : ℤ) : ℚ)

/-- A concrete `JsMath` instance for the closed test runs below.  The
runs only ever evaluate `cos` and `sin` at angle `0` and `sqrt` at `1`,
where the values given here coincide with the IEEE doubles
(`Math.cos(0) = 1`, `Math.sin(0) = 0`, `Math.sqrt(1) = 1`), and `pi`
is the exact double `Math.PI`. -/
def testMath : JsMath where
  cos := fun q => if q = 0 then 1 else 0
  sin := fun _ => 0
  sqrt := ratSqrt
  pi := jsPI

/-! ## Visibility engine (Visibility module) -/

/-- The visibility engine state: configuration, the persistent
`discovered` set and the per-frame `currentlyVisible` set.  Cells are
identified by the pair `(gx, gy)`, in bijection with the JS string key
produced by template `gx` `,` `gy` concatenation.  The LOS cache and
the wall-clock `lastUpdateTime` are pure performance caches keyed on
real time and are not modelled. -/
structure Visibility where
  viewDistance : ℚ
  rayStep : ℚ
  fovRayCount : ℕ
  discovered : List (ℤ × ℤ)
  currentlyVisible : List (ℤ × ℤ)
  totalWalkable : ℕ
  deriving DecidableEq

namespace Visibility

/-- The constructor `new Visibility(world, config)` (with explicit
configuration values; the JS defaults are `viewDistance = 14`,
`rayStep = 0.4`, `fovRayCount = 180`). -/
def createVis (w : World) (viewDistance rayStep : ℚ) (fovRayCount : ℕ) : Visibility where
  viewDistance := viewDistance
  rayStep := rayStep
  fovRayCount := fovRayCount
  discovered := []
  currentlyVisible := []
  totalWalkable := w.countWalkable

/-- The running state of the `_castVisibilityRay` march: current
position, the accumulated visible set, and whether the JS loop has
executed `break`. -/
structure VisRayState where
  x : ℚ
  y : ℚ
  acc : List (ℤ × ℤ)
  stopped : Bool
  deriving DecidableEq

/-- One pass of the `for (let d = 0; d < viewDistance; d += rayStep)`
body of `_castVisibilityRay`: advance, record the traversed cell, and
stop (`break`) at a non-walkable cell just after recording it.  A
stopped state models the iterations the JS loop never runs after the
`break`. -/
def castVisRayStep (w : World) (dx dy : ℚ) (st : VisRayState) : VisRayState :=
  if st.stopped then st
  else
    let x' := st.x + dx
    let y' := st.y + dy
    let k := (⌊x'⌋, ⌊y'⌋)
    let acc' := if k ∈ st.acc then st.acc else st.acc ++ [k]
    { x := x', y := y', acc := acc', stopped := !w.isWalkableB x' y' }

/-- `_castVisibilityRay(startX, startY, angle)`, accumulating into the
currently-visible set.  The loop body runs `⌈viewDistance / rayStep⌉`
times for a positive step (for `rayStep ≤ 0` the JS loop would never
terminate; such configurations are outside every run considered
here). -/
def castVisibilityRay (m : JsMath) (w : World) (v : Visibility) (startX startY angle : ℚ)
    (acc : List (ℤ × ℤ)) : List (ℤ × ℤ) :=
  ((List.range (Int.ceil (v.viewDistance / v.rayStep)).toNat).foldl
    (fun st _ => castVisRayStep w (m.cos angle * v.rayStep) (m.sin angle * v.rayStep) st)
    { x := startX, y := startY, acc := acc, stopped := false }).acc

/-- The result of `update`: the new engine state together with the
newly discovered cells the JS code reports through the `discovered`
event (design note 9 of the spec: events as explicit return values). -/
structure UpdateResult where
  state : Visibility
  newlyDiscovered : List (ℤ × ℤ)
  deriving DecidableEq

/-- The body of the discovery pass of `update`: a cell that was not
visible in the previous frame, is walkable and is not yet discovered
is added to the discovered set and to the newly-discovered report. -/
def discStep (w : World) (prev : List (ℤ × ℤ)) (st : List (ℤ × ℤ) × List (ℤ × ℤ))
    (k : ℤ × ℤ) : List (ℤ × ℤ) × List (ℤ × ℤ) :=
  if k ∈ prev then st
  else if w.isWalkableB (k.1 : ℚ) (k.2 : ℚ) ∧ k ∉ st.1 then (st.1 ++ [k], st.2 ++ [k])
  else st

/-- `update(x, y, angle, fov)`: replace the visible set by a fan of
`⌈fovRayCount · fov / 2π⌉` rays, then add to `discovered` every cell
that is newly visible, walkable and not yet discovered. -/
def update (m : JsMath) (w : World) (v : Visibility) (x y angle fov : ℚ) : UpdateResult :=
  let prev := v.currentlyVisible
  let startAngle := angle - fov / 2
  let rayCount : ℤ := Int.ceil ((v.fovRayCount : ℚ) * (fov / (2 * m.pi)))
  let cv := (List.range rayCount.toNat).foldl
    (fun (acc : List (ℤ × ℤ)) (i : ℕ) =>
      castVisibilityRay m w v x y (startAngle + ((i : ℚ) / (rayCount : ℚ)) * fov) acc) []
  let pass := cv.foldl (discStep w prev) (v.discovered, [])
  { state := { v with currentlyVisible := cv, discovered := pass.1 }
    newlyDiscovered := pass.2 }

/-- `isVisible(gx, gy)`. -/
def isVisible (v : Visibility) (gx gy : ℤ) : Bool :=
  decide ((gx, gy) ∈ v.currentlyVisible)

/-- `isDiscovered(gx, gy)`. -/
def isDiscovered (v : Visibility) (gx gy : ℤ) : Bool :=
  decide ((gx, gy) ∈ v.discovered)

/-- `resetDiscovery()`. -/
def resetDiscovery (v : Visibility) : Visibility :=
  { v with discovered := [], currentlyVisible := [] }

/-- The sector-dependent payload of a `castRay` hit record.  The
`sector` field is `none` exactly in the crash states excluded by world
well-formedness (JS would have thrown inside `isWalkable` instead). -/
structure HitInfo where
  gridX : ℤ
  gridY : ℤ
  sector : Option SectorType
  sectorKey : Option String
  face : String
  visible : Bool
  discovered : Bool
  deriving DecidableEq

/-- A `castRay` result: either a hit record or the no-hit record
`{hit: false, distance: max, x, y}` (`info := none`). -/
structure RayHit where
  hit : Bool
  x : ℚ
  y : ℚ
  distance : ℚ
  info : Option HitInfo
  deriving DecidableEq

/-- The `while (dist < max)` march of `castRay` with step `0.02`. -/
def castRayLoop (w : World) (v : Visibility) (max dx dy : ℚ) :
    ℕ → ℚ → ℚ → ℚ → RayHit
  | 0, x, y, _ => { hit := false, x := x, y := y, distance := max, info := none }
  | n + 1, x, y, dist =>
    let x' := x + dx
    let y' := y + dy
    let dist' := dist + 1 / 50
    let gx := ⌊x'⌋
    let gy := ⌊y'⌋
    if w.isWalkableB x' y' then castRayLoop w v max dx dy n x' y' dist'
    else
      let fractX := x' - (gx : ℚ)
      { hit := true
        x := x'
        y := y'
        distance := dist'
        info := some
          { gridX := gx
            gridY := gy
            sector := w.getSector x' y'
            sectorKey := w.getSectorKey gx gy
            face := if fractX < 1 / 20 ∨ fractX > 19 / 20 then "ns" else "ew"
            visible := v.isVisible gx gy
            discovered := v.isDiscovered gx gy } }

/-- `castRay(startX, startY, angle, maxDist)`.  A `maxDist` of `0`
models the JS default argument `null` (both falsy), replaced by
`viewDistance * 1.5`; the fine render step is `0.02`.  The loop runs
`⌈max / 0.02⌉` times unless it hits first. -/
def castRay (m : JsMath) (w : World) (v : Visibility) (startX startY angle maxDist : ℚ) :
    RayHit :=
  let max := if maxDist = 0 then v.viewDistance * (3 / 2) else maxDist
  let dx := m.cos angle * (1 / 50)
  let dy := m.sin angle * (1 / 50)
  castRayLoop w v max dx dy (Int.ceil (max * 50)).toNat startX startY 0

/-- One entry of the `castRays` result: the `castRay` record with the
fish-eye corrected distance and the column index added. -/
structure ColumnHit where
  ray : RayHit
  correctedDistance : ℚ
  column : ℕ
  deriving DecidableEq

/-- `castRays(startX, startY, angle, fov, rayCount)`: one ray per
screen column; `castRay` always returns a (truthy) record, so every
column contributes exactly one entry. -/
def castRays (m : JsMath) (w : World) (v : Visibility) (startX startY angle fov : ℚ)
    (rayCount : ℕ) : List ColumnHit :=
  (List.range rayCount).map (fun (i : ℕ) =>
    let rayOffset : ℚ := (i : ℚ) / (rayCount : ℚ) - 1 / 2
    let rayAngle := angle + rayOffset * fov
    let hit := castRay m w v startX startY rayAngle 0
    { ray := hit
      correctedDistance := hit.distance * m.cos (rayAngle - angle)
      column := i })

/-- `hasLineOfSight(x1, y1, x2, y2)` with its coarse `0.2` step. -/
def hasLineOfSight (m : JsMath) (w : World) (x1 y1 x2 y2 : ℚ) : Bool :=
  let dx := x2 - x1
  let dy := y2 - y1
  let dist := m.sqrt (dx * dx + dy * dy)
  if dist < 1 / 10 then true
  else
    let steps : ℤ := Int.ceil (dist / (1 / 5))
    let stepX := dx / (steps : ℚ)
    let stepY := dy / (steps : ℚ)
    losLoop w stepX stepY steps.toNat x1 y1
where
  /-- The `for (let i = 0; i < steps; i++)` march of `hasLineOfSight`. -/
  losLoop (w : World) (stepX stepY : ℚ) : ℕ → ℚ → ℚ → Bool
    | 0, _, _ => true
    | n + 1, x, y =>
      let x' := x + stepX
      let y' := y + stepY
      if w.isWalkableB x' y' then losLoop w stepX stepY n x' y' else false

/-- `serializeDiscovery()`. -/
def serializeDiscovery (v : Visibility) : List (ℤ × ℤ) :=
  v.discovered

/-- `deserializeDiscovery(data)`. -/
def deserializeDiscovery (v : Visibility) (data : List (ℤ × ℤ)) : Visibility :=
  { v with discovered := data }

end Visibility

/-! ## Movement solver (Movement module of mechs.js) -/

/-- Movement solver configuration (`new Movement(world, config)`). -/
structure MoveConfig where
  defaultRadius : ℚ
  maxStepHeight : ℚ
  collisionStep : ℚ
  slideIterations : ℕ
  deriving DecidableEq

/-- The configuration a `Movement` gets from an empty `config`:
`defaultRadius 0.2`, `maxStepHeight 0.3`, `collisionStep 0.05`,
`slideIterations 3`. -/
def defaultMoveConfig : MoveConfig where
  defaultRadius := 1 / 5
  maxStepHeight := 3 / 10
  collisionStep := 1 / 20
  slideIterations := 3

namespace Movement

/-- One sample of `canOccupy`: the sector must be walkable and its
floor must not exceed `z` by more than the max step height (`none`
from `getSector` is the crash state excluded by well-formedness). -/
def occPoint (cfg : MoveConfig) (w : World) (z : ℚ) (p : ℚ × ℚ) : Bool :=
  match w.getSector p.1 p.2 with
  | none => false
  | some s => s.walkable && !(decide (s.floor - z > cfg.maxStepHeight))

/-- `canOccupy(x, y, radius, z)`: nine samples of the bounding circle
(center, four corners, four edge midpoints).  A `radius` of `0` models
every falsy JS argument (`0`, `null`, `undefined`) and is replaced by
the configured default radius. -/
def canOccupy (cfg : MoveConfig) (w : World) (x y radius z : ℚ) : Bool :=
  let r := if radius = 0 then cfg.defaultRadius else radius
  [(x, y),
   (x - r, y - r), (x + r, y - r), (x - r, y + r), (x + r, y + r),
   (x - r, y), (x + r, y), (x, y - r), (x, y + r)].all (occPoint cfg w z)

/-- The entity fields read by `move`: position, collision radius and
height. -/
structure MoveEnt where
  x : ℚ
  y : ℚ
  radius : ℚ
  z : ℚ
  deriving DecidableEq

/-- The result record of `move`. -/
structure MoveResult where
  x : ℚ
  y : ℚ
  collided : Bool
  slideX : ℚ
  slideY : ℚ
  deriving DecidableEq

/-- The running state of the micro-step loop of `move`: current
position and whether the JS loop has executed `break`. -/
structure MicroState where
  x : ℚ
  y : ℚ
  stopped : Bool
  deriving DecidableEq

/-- One pass of the greedy micro-step loop of `move`: prefer full
diagonal motion, then x-only, then y-only, and stop (`break`) at the
first fully blocked step. -/
def microStep (cfg : MoveConfig) (w : World) (radius z stepX stepY : ℚ)
    (st : MicroState) : MicroState :=
  if st.stopped then st
  else
    let nextX := st.x + stepX
    let nextY := st.y + stepY
    if canOccupy cfg w nextX nextY radius z then { st with x := nextX, y := nextY }
    else if canOccupy cfg w nextX st.y radius z then { st with x := nextX }
    else if canOccupy cfg w st.x nextY radius z then { st with y := nextY }
    else { st with stopped := true }

/-- The micro-step loop of `move`, run for the JS iteration count. -/
def microLoop (cfg : MoveConfig) (w : World) (radius z stepX stepY : ℚ) (steps : ℕ)
    (x y : ℚ) : ℚ × ℚ :=
  let fin := (List.range steps).foldl
    (fun st _ => microStep cfg w radius z stepX stepY st)
    { x := x, y := y, stopped := false }
  (fin.x, fin.y)

/-- `move(entity, dx, dy)`: full displacement, then axis-separated
sliding, then micro-stepping.  `sq` is the `Math.sqrt` used for the
displacement length. -/
def move (sq : ℚ → ℚ) (cfg : MoveConfig) (w : World) (e : MoveEnt) (dx dy : ℚ) : MoveResult :=
  let radius := if e.radius = 0 then cfg.defaultRadius else e.radius
  let startX := e.x
  let startY := e.y
  let newX := startX + dx
  let newY := startY + dy
  if canOccupy cfg w newX newY radius e.z then
    { x := newX, y := newY, collided := false, slideX := 0, slideY := 0 }
  else
    let xMoved := decide (dx ≠ 0) && canOccupy cfg w newX startY radius e.z
    let resultX := if xMoved then newX else startX
    let yMoved := decide (dy ≠ 0) && canOccupy cfg w resultX newY radius e.z
    let resultY := if yMoved then newY else startY
    let slideCollided := !xMoved && !yMoved
    if resultX = startX ∧ resultY = startY ∧ (dx ≠ 0 ∨ dy ≠ 0) then
      let len := sq (dx * dx + dy * dy)
      if len > cfg.collisionStep then
        let steps : ℕ := (Int.ceil (len / cfg.collisionStep)).toNat
        let stepX := dx / (steps : ℚ)
        let stepY := dy / (steps : ℚ)
        let fin := microLoop cfg w radius e.z stepX stepY steps startX startY
        { x := fin.1
          y := fin.2
          collided := decide (fin.1 = startX ∧ fin.2 = startY)
          slideX := fin.1 - startX - dx
          slideY := fin.2 - startY - dy }
      else
        { x := resultX
          y := resultY
          collided := slideCollided
          slideX := resultX - startX - dx
          slideY := resultY - startY - dy }
    else
      { x := resultX
        y := resultY
        collided := slideCollided
        slideX := resultX - startX - dx
        slideY := resultY - startY - dy }

end Movement

/-! ## Entity manager (Entity module) -/

/-- The engine-side fields of an `Entity`. -/
structure Ent where
  id : ℕ
  type : String
  x : ℚ
  y : ℚ
  z : ℚ
  angle : ℚ
  radius : ℚ
  height : ℚ
  solid : Bool
  visible : Bool
  vx : ℚ
  vy : ℚ
  speed : ℚ
  active : Bool
  removed : Bool
  deriving DecidableEq

namespace Ent

/-- The default `Entity.update(dt)`: apply the velocity when nonzero. -/
def tick (e : Ent) (dt : ℚ) : Ent :=
  if e.vx ≠ 0 ∨ e.vy ≠ 0 then { e with x := e.x + e.vx * dt, y := e.y + e.vy * dt } else e

/-- `Entity.remove()`: mark for removal. -/
def markRemoved (e : Ent) : Ent :=
  { e with removed := true, active := false }

end Ent

/-- The bucket key `(floor(x / cellSize), floor(y / cellSize))`. -/
def cellKeyQ (cellSize x y : ℚ) : ℤ × ℤ :=
  (⌊x / cellSize⌋, ⌊y / cellSize⌋)

/-- The `EntityManager`: the by-id registry, the by-type secondary
index and the spatial hash (buckets of entity ids; JS buckets hold the
entity objects themselves, which the id identifies uniquely in the
id-keyed registry). -/
structure EManager where
  entities : List (ℕ × Ent)
  byType : List (String × List ℕ)
  spatialHash : List ((ℤ × ℤ) × List ℕ)
  cellSize : ℚ
  deriving DecidableEq

namespace EManager

/-- `new EntityManager(world)`: empty maps, `cellSize = 4`. -/
def empty : EManager where
  entities := []
  byType := []
  spatialHash := []
  cellSize := 4

/-- `_addToSpatialHash(entity)`. -/
def hashAdd (h : List ((ℤ × ℤ) × List ℕ)) (k : ℤ × ℤ) (id : ℕ) : List ((ℤ × ℤ) × List ℕ) :=
  match alGet h k with
  | none => alSet h k [id]
  | some ids => alSet h k (if id ∈ ids then ids else ids ++ [id])

/-- `_removeFromSpatialHash(entity)` (bucket dropped when emptied). -/
def hashDel (h : List ((ℤ × ℤ) × List ℕ)) (k : ℤ × ℤ) (id : ℕ) : List ((ℤ × ℤ) × List ℕ) :=
  match alGet h k with
  | none => h
  | some ids =>
    let ids' := ids.filter (fun j => decide (j ≠ id))
    if ids'.isEmpty then alDel h k else alSet h k ids'

/-- `_updateSpatialHash(entity, oldX, oldY)`. -/
def hashMove (h : List ((ℤ × ℤ) × List ℕ)) (cellSize oldX oldY : ℚ) (e : Ent) :
    List ((ℤ × ℤ) × List ℕ) :=
  let oldKey := cellKeyQ cellSize oldX oldY
  let newKey := cellKeyQ cellSize e.x e.y
  if oldKey = newKey then h else hashAdd (hashDel h oldKey e.id) newKey e.id

/-- `add(entity)`. -/
def add (m : EManager) (e : Ent) : EManager :=
  { m with
      entities := alSet m.entities e.id e
      byType :=
        match alGet m.byType e.type with
        | none => alSet m.byType e.type [e.id]
        | some s => alSet m.byType e.type (if e.id ∈ s then s else s ++ [e.id])
      spatialHash := hashAdd m.spatialHash (cellKeyQ m.cellSize e.x e.y) e.id }

/-- `remove(entityOrId)`: looks the entity up and, when present,
deletes it from the registry, the type index and the spatial hash at
once (the JS code also sets the shared object's `removed` flag, which
is unobservable through the manager after the deletion). -/
def remove (m : EManager) (id : ℕ) : EManager :=
  match alGet m.entities id with
  | none => m
  | some e =>
    { m with
        entities := alDel m.entities id
        byType :=
          match alGet m.byType e.type with
          | none => m.byType
          | some s => alSet m.byType e.type (s.filter (fun j => decide (j ≠ id)))
        spatialHash := hashDel m.spatialHash (cellKeyQ m.cellSize e.x e.y) id }

/-- Gameplay code calling `entity.remove()` on an entity tracked by
the manager: the shared object is marked, the manager's structures are
untouched. -/
def markRemove (m : EManager) (id : ℕ) : EManager :=
  { m with entities := alUpdate m.entities id Ent.markRemoved }

/-- The per-entity body of the first `update(dt)` pass: advance an
active entity and re-bucket it if it moved. -/
def updateStep (dt : ℚ) (m : EManager) (p : ℕ × Ent) : EManager :=
  if p.2.active = false then m
  else
    let e := p.2
    let e' := e.tick dt
    if e'.x ≠ e.x ∨ e'.y ≠ e.y then
      { m with
          entities := alUpdate m.entities p.1 (fun _ => e')
          spatialHash := hashMove m.spatialHash m.cellSize e.x e.y e' }
    else m

/-- `update(dt)`: advance every active entity (re-bucketing movers),
then purge the entities marked for removal. -/
def update (m : EManager) (dt : ℚ) : EManager :=
  let m1 := m.entities.foldl (updateStep dt) m
  let removedIds := (m1.entities.filter (fun p => p.2.removed)).map Prod.fst
  removedIds.foldl (fun acc id => acc.remove id) m1

/-- The per-entity body of the `getNear` bucket scan: skip already
checked ids, otherwise mark checked and keep the entity if its true
squared distance to the query point is within the squared radius. -/
def nearFilter (m : EManager) (x y radiusSq : ℚ) (st : List ℕ × List Ent) (id : ℕ) :
    List ℕ × List Ent :=
  if id ∈ st.1 then st
  else
    match alGet m.entities id with
    | none => (st.1 ++ [id], st.2)
    | some e =>
      if (e.x - x) * (e.x - x) + (e.y - y) * (e.y - y) ≤ radiusSq then
        (st.1 ++ [id], st.2 ++ [e])
      else (st.1 ++ [id], st.2)

/-- One bucket of the `getNear` scan (a missing bucket contributes
nothing). -/
def nearBucket (m : EManager) (x y radiusSq : ℚ) (st : List ℕ × List Ent) (ck : ℤ × ℤ) :
    List ℕ × List Ent :=
  ((alGet m.spatialHash ck).getD []).foldl (nearFilter m x y radiusSq) st

/-- The bucket rectangle scanned by `getNear`, row by row (`cy` outer,
`cx` inner, matching the JS loop nesting). -/
def nearCells (m : EManager) (x y radius : ℚ) : List (ℤ × ℤ) :=
  let minCellX := ⌊(x - radius) / m.cellSize⌋
  let maxCellX := ⌊(x + radius) / m.cellSize⌋
  let minCellY := ⌊(y - radius) / m.cellSize⌋
  let maxCellY := ⌊(y + radius) / m.cellSize⌋
  (intRange minCellY maxCellY).flatMap (fun cy =>
    (intRange minCellX maxCellX).map (fun cx => (cx, cy)))

/-- `getNear(x, y, radius)`: scan the buckets spanning the query
circle's bounding square, de-duplicate by id, filter by true squared
distance. -/
def getNear (m : EManager) (x y radius : ℚ) : List Ent :=
  ((nearCells m x y radius).foldl (nearBucket m x y (radius * radius)) ([], [])).2

/-- `getInSector(gx, gy)`. -/
def getInSector (m : EManager) (gx gy : ℤ) : List Ent :=
  (getNear m ((gx : ℚ) + 1 / 2) ((gy : ℚ) + 1 / 2) 1).filter
    (fun e => decide (⌊e.x⌋ = gx ∧ ⌊e.y⌋ = gy))

end EManager

/-! ## Derived state predicates used by the theorems -/

/-- The visibility invariant relating the two sets of the engine:
every currently visible walkable cell is discovered. -/
def VisInv (w : World) (v : Visibility) : Prop :=
  ∀ k ∈ v.currentlyVisible, w.isWalkableB (k.1 : ℚ) (k.2 : ℚ) = true → k ∈ v.discovered

instance (w : World) (v : Visibility) : Decidable (VisInv w v) :=
  List.decidableBAll _ v.currentlyVisible

/-- A sequence of `update` calls against a fixed world, each argument
tuple being `(x, y, angle, fov)`. -/
def updFold (m : JsMath) (w : World) (v : Visibility) (l : List (ℚ × ℚ × ℚ × ℚ)) :
    Visibility :=
  l.foldl (fun v a => (Visibility.update m w v a.1 a.2.1 a.2.2.1 a.2.2.2).state) v

/-- Consistency of the entity manager's derived indices, as maintained
by `add`/`remove`/`update`: entities are registered under their own id
with no duplicate ids, every entity is listed in the spatial-hash
bucket of its position, and every id in a bucket belongs to a
registered entity whose position hashes to that bucket. -/
def EManager.Consistent (em : EManager) : Prop :=
  (∀ p ∈ em.entities, p.2.id = p.1) ∧
  (em.entities.map Prod.fst).Nodup ∧
  (∀ p ∈ em.entities,
    p.1 ∈ (alGet em.spatialHash (cellKeyQ em.cellSize p.2.x p.2.y)).getD []) ∧
  (∀ q ∈ em.spatialHash, ∀ id ∈ q.2,
    (alGet em.entities id).map (fun e => cellKeyQ em.cellSize e.x e.y) = some q.1)

instance (em : EManager) : Decidable em.Consistent := by
  unfold EManager.Consistent
  infer_instance

/-! ## Concrete fixtures for the closed runs -/

/-- A 4×3 grid: a one-cell-wide walkable corridor along row 1 with
the non-walkable default `"void"` above and below. -/
def corridorWorld : World :=
  ((World.create 4 3 "void").registerSectorType "floor" {}).fillRect 0 1 3 1 "floor"

/-- An entity of radius `0.2` at the cell corner `(1, 1)`. -/
def mechEnt : Movement.MoveEnt where
  x := 1
  y := 1
  radius := 1 / 5
  z := 0

/-- An entity of radius `0.2` at the cell center `(1.5, 1.5)`. -/
def mechEntC : Movement.MoveEnt where
  x := 3 / 2
  y := 3 / 2
  radius := 1 / 5
  z := 0

/-- A 3×1 strip: cell `(0,0)` walkable floor, cells `(1,0)` and
`(2,0)` the non-walkable default. -/
def visW0 : World :=
  (((World.create 3 1 "void").registerSectorType "floor" {}).setSector 0 0 "floor").1

/-- `visW0` after the mutation `setSector(1, 0, "floor")` making cell
`(1,0)` walkable. -/
def visW1 : World :=
  (visW0.setSector 1 0 "floor").1

/-- A fresh visibility engine over `visW0` with view distance 2, ray
step 0.4 and a single ray per full circle. -/
def visV0 : Visibility :=
  Visibility.createVis visW0 2 (2 / 5) 1

/-- The engine after one `update` from `(0.5, 0.5)` facing `π` with a
full-circle fov, i.e. a single ray marching in the `+x` direction. -/
def visV1 : Visibility :=
  (Visibility.update testMath visW0 visV0 (1 / 2) (1 / 2) jsPI (2 * jsPI)).state

/-- The engine after a second identical `update`, now against the
mutated world `visW1`. -/
def visV2 : Visibility :=
  (Visibility.update testMath visW1 visV1 (1 / 2) (1 / 2) jsPI (2 * jsPI)).state

/-- A 1×1 all-void world for the ray-casting runs. -/
def rayWorld : World :=
  World.create 1 1 "void"

/-- A visibility engine over `rayWorld` with view distance 1. -/
def rayVis : Visibility :=
  Visibility.createVis rayWorld 1 (2 / 5) 1

/-- A generic entity at `(0.5, 0.5)`. -/
def entA : Ent where
  id := 1
  type := "entity"
  x := 1 / 2
  y := 1 / 2
  z := 0
  angle := 0
  radius := 1 / 5
  height := 1 / 2
  solid := true
  visible := true
  vx := 0
  vy := 0
  speed := 3
  active := true
  removed := false

/-- A manager holding just `entA`. -/
def emA : EManager :=
  EManager.empty.add entA

/-- An entity at `(3, 0)`: Euclidean distance from the origin exactly 3. -/
def entB : Ent :=
  { entA with id := 2, x := 3, y := 0 }

/-- A manager holding just `entB`. -/
def emB : EManager :=
  EManager.empty.add entB

/-- An entity at `(3.9, 0)`, in spatial-hash bucket `(0, 0)`. -/
def entC : Ent :=
  { entA with id := 3, x := 39 / 10, y := 0 }

/-- An entity at `(4.2, 0)`, in spatial-hash bucket `(1, 0)`. -/
def entD : Ent :=
  { entA with id := 4, x := 21 / 5, y := 0 }

/-- A manager holding `entC` and `entD`, which occupy different
buckets. -/
def emCD : EManager :=
  (EManager.empty.add entC).add entD

/-- A 2×2 all-void world: no position is occupiable. -/
def voidWorld : World :=
  World.create 2 2 "void"

/-- An entity of radius `0.2` standing at `(0.5, 0.5)` of `voidWorld`,
a position that is not occupiable. -/
def entStuck : Movement.MoveEnt where
  x := 1 / 2
  y := 1 / 2
  radius := 1 / 5
  z := 0

/-- A 1×1 world whose single cell is walkable floor. -/
def cellWorld : World :=
  (((World.create 1 1 "void").registerSectorType "floor" {}).setSector 0 0 "floor").1

/-- An entity of radius `0.2` at the center of `cellWorld`, an
occupiable position. -/
def entIn : Movement.MoveEnt where
  x := 1 / 2
  y := 1 / 2
  radius := 1 / 5
  z := 0

/-! ## Helper lemmas: the discovery pass -/

theorem discStep_fst_sub (w : World) (prev : List (ℤ × ℤ)) (st : List (ℤ × ℤ) × List (ℤ × ℤ))
    (k : ℤ × ℤ) : st.1 ⊆ (Visibility.discStep w prev st k).1 := by
  unfold Visibility.discStep
  split
  · exact fun a ha => ha
  · split
    · exact fun a ha => List.mem_append_left _ ha
    · exact fun a ha => ha

theorem discPass_fst_sub (w : World) (prev : List (ℤ × ℤ)) (cv : List (ℤ × ℤ))
    (st : List (ℤ × ℤ) × List (ℤ × ℤ)) :
    st.1 ⊆ (cv.foldl (Visibility.discStep w prev) st).1 := by
  induction cv generalizing st with
  | nil => exact fun a ha => ha
  | cons a t ih =>
    rw [List.foldl_cons]
    exact fun b hb => ih _ (discStep_fst_sub w prev st a hb)

theorem discPass_covers (w : World) (prev : List (ℤ × ℤ)) (cv : List (ℤ × ℤ))
    (st : List (ℤ × ℤ) × List (ℤ × ℤ)) (k : ℤ × ℤ) (hk : k ∈ cv)
    (hw : w.isWalkableB (k.1 : ℚ) (k.2 : ℚ) = true)
    (hp : k ∈ prev → k ∈ st.1) :
    k ∈ (cv.foldl (Visibility.discStep w prev) st).1 := by
  induction cv generalizing st with
  | nil => simp at hk
  | cons a t ih =>
    rw [List.foldl_cons]
    rcases List.mem_cons.mp hk with rfl | hk2
    · by_cases hprev : k ∈ prev
      · exact discPass_fst_sub w prev t _ (discStep_fst_sub w prev st k (hp hprev))
      · apply discPass_fst_sub w prev t
        unfold Visibility.discStep
        rw [if_neg hprev]
        by_cases hin : k ∈ st.1
        · split
          · exact List.mem_append_left _ hin
          · exact hin
        · rw [if_pos ⟨hw, hin⟩]
          exact List.mem_append_right _ (List.mem_singleton.mpr rfl)
    · exact ih _ hk2 (fun hprev => discStep_fst_sub w prev st a (hp hprev))

theorem update_discovered_mono (m : JsMath) (w : World) (v : Visibility) (x y angle fov : ℚ) :
    v.discovered ⊆ (Visibility.update m w v x y angle fov).state.discovered := by
  unfold Visibility.update
  exact discPass_fst_sub w v.currentlyVisible _ (v.discovered, [])

theorem update_preserves_visInv (m : JsMath) (w : World) (v : Visibility) (x y angle fov : ℚ)
    (h : VisInv w v) : VisInv w (Visibility.update m w v x y angle fov).state := by
  unfold Visibility.update
  intro k hk hw
  exact discPass_covers w v.currentlyVisible _ (v.discovered, []) k hk hw (fun hp => h k hp hw)

theorem updFold_preserves_visInv (m : JsMath) (w : World) (v : Visibility)
    (l : List (ℚ × ℚ × ℚ × ℚ)) (h : VisInv w v) : VisInv w (updFold m w v l) := by
  induction l generalizing v with
  | nil => exact h
  | cons a t ih =>
    exact ih _ (update_preserves_visInv m w v a.1 a.2.1 a.2.2.1 a.2.2.2 h)

theorem updFold_discovered_mono (m : JsMath) (w : World) (v : Visibility)
    (l : List (ℚ × ℚ × ℚ × ℚ)) : v.discovered ⊆ (updFold m w v l).discovered := by
  induction l generalizing v with
  | nil => exact fun a ha => ha
  | cons a t ih =>
    intro b hb
    exact ih _ (update_discovered_mono m w v a.1 a.2.1 a.2.2.1 a.2.2.2 hb)

theorem updFold_append (m : JsMath) (w : World) (v : Visibility)
    (l1 l2 : List (ℚ × ℚ × ℚ × ℚ)) :
    updFold m w v (l1 ++ l2) = updFold m w (updFold m w v l1) l2 := by
  unfold updFold
  exact List.foldl_append _ _ l1 l2

/-! ## Helper lemmas: the world grid -/

theorem wf_cellKey_isSome (w : World) (hwf : w.wfB = true) (gx gy : ℤ)
    (h : w.outOfBounds gx gy = false) : ∃ key, w.cellKey? gx gy = some key := by
  have hb : ¬gx < 0 ∧ ¬gx ≥ w.width ∧ ¬gy < 0 ∧ ¬gy ≥ w.height := by
    unfold World.outOfBounds at h
    simp only [Bool.or_eq_false_iff, decide_eq_false_iff_not] at h
    tauto
  obtain ⟨h1, h2, h3, h4⟩ := hb
  unfold World.wfB at hwf
  rw [Bool.and_eq_true, Bool.and_eq_true] at hwf
  obtain ⟨⟨-, hlen⟩, hrows⟩ := hwf
  rw [beq_iff_eq] at hlen
  rw [List.all_eq_true] at hrows
  have hylt : gy.toNat < w.grid.length := by omega
  have hrmem : w.grid.get ⟨gy.toNat, hylt⟩ ∈ w.grid := List.get_mem _ _ _
  have hrl := hrows _ hrmem
  rw [beq_iff_eq] at hrl
  have hxlt : gx.toNat < (w.grid.get ⟨gy.toNat, hylt⟩).length := by omega
  refine ⟨(w.grid.get ⟨gy.toNat, hylt⟩).get ⟨gx.toNat, hxlt⟩, ?_⟩
  unfold World.cellKey?
  rw [List.get?_eq_get hylt, Option.some_bind]
  exact List.get?_eq_get hxlt


/-! ## Evaluation lemmas for the concrete fixtures -/

theorem visW0_eq : visW0 =
    { width := 3, height := 1, defaultSector := "void",
      grid := [["floor", "void", "void"]],
      sectorTypes := [("void", mergeDefaults "void" voidDef),
        ("floor", mergeDefaults "floor" {})],
      regions := [] } := rfl

theorem visW1_eq : visW1 =
    { width := 3, height := 1, defaultSector := "void",
      grid := [["floor", "floor", "void"]],
      sectorTypes := [("void", mergeDefaults "void" voidDef),
        ("floor", mergeDefaults "floor" {})],
      regions := [] } := rfl

theorem range_one : List.range 1 = [0] := rfl

theorem range_five : List.range 5 = [0, 1, 2, 3, 4] := rfl

theorem w0_walk_00 : visW0.isWalkableB (9 / 10) (1 / 2) = true := by
  rw [visW0_eq]
  norm_num +decide [World.isWalkableB, World.getSector, World.outOfBounds, World.cellKey?,
    alGet, mergeDefaults]

theorem w0_walk_10 : visW0.isWalkableB (13 / 10) (1 / 2) = false := by
  rw [visW0_eq]
  norm_num +decide [World.isWalkableB, World.getSector, World.outOfBounds, World.cellKey?,
    alGet, mergeDefaults, voidDef]

theorem w0_walk_c00 : visW0.isWalkableB 0 0 = true := by
  rw [visW0_eq]
  norm_num +decide [World.isWalkableB, World.getSector, World.outOfBounds, World.cellKey?,
    alGet, mergeDefaults]

theorem w0_walk_c10 : visW0.isWalkableB 1 0 = false := by
  rw [visW0_eq]
  norm_num +decide [World.isWalkableB, World.getSector, World.outOfBounds, World.cellKey?,
    alGet, mergeDefaults, voidDef]

theorem w0_walk_c20 : visW0.isWalkableB 2 0 = false := by
  rw [visW0_eq]
  norm_num +decide [World.isWalkableB, World.getSector, World.outOfBounds, World.cellKey?,
    alGet, mergeDefaults, voidDef]

theorem w0_count : visW0.countWalkable = 1 := by
  rw [visW0_eq]
  norm_num +decide [World.countWalkable, World.isWalkableB, World.getSector,
    World.outOfBounds, World.cellKey?, alGet, mergeDefaults, voidDef, List.range_succ]

theorem visV0_eq : visV0 =
    { viewDistance := 2, rayStep := 2 / 5, fovRayCount := 1,
      discovered := [], currentlyVisible := [], totalWalkable := 1 } := by
  unfold visV0
  rw [Visibility.createVis, w0_count]

theorem toNat_five : (5 : ℤ).toNat = 5 := rfl

theorem visV1_eq : visV1 =
    { viewDistance := 2, rayStep := 2 / 5, fovRayCount := 1,
      discovered := [(0, 0)], currentlyVisible := [(0, 0), (1, 0)],
      totalWalkable := 1 } := by
  unfold visV1
  rw [visV0_eq]
  norm_num +decide [Visibility.update, Visibility.castVisibilityRay, Visibility.castVisRayStep,
    Visibility.discStep, testMath, jsPI, range_one, range_five, toNat_five,
    w0_walk_00, w0_walk_10, w0_walk_c00, w0_walk_c10, w0_walk_c20]

theorem w1_walk_a : visW1.isWalkableB (9 / 10) (1 / 2) = true := by
  rw [visW1_eq]
  norm_num +decide [World.isWalkableB, World.getSector, World.outOfBounds, World.cellKey?,
    alGet, mergeDefaults]

theorem w1_walk_b : visW1.isWalkableB (13 / 10) (1 / 2) = true := by
  rw [visW1_eq]
  norm_num +decide [World.isWalkableB, World.getSector, World.outOfBounds, World.cellKey?,
    alGet, mergeDefaults]

theorem w1_walk_c : visW1.isWalkableB (17 / 10) (1 / 2) = true := by
  rw [visW1_eq]
  norm_num +decide [World.isWalkableB, World.getSector, World.outOfBounds, World.cellKey?,
    alGet, mergeDefaults]

theorem w1_walk_d : visW1.isWalkableB (21 / 10) (1 / 2) = false := by
  rw [visW1_eq]
  norm_num +decide [World.isWalkableB, World.getSector, World.outOfBounds, World.cellKey?,
    alGet, mergeDefaults, voidDef]

theorem w1_walk_c00 : visW1.isWalkableB 0 0 = true := by
  rw [visW1_eq]
  norm_num +decide [World.isWalkableB, World.getSector, World.outOfBounds, World.cellKey?,
    alGet, mergeDefaults]

theorem w1_walk_c10 : visW1.isWalkableB 1 0 = true := by
  rw [visW1_eq]
  norm_num +decide [World.isWalkableB, World.getSector, World.outOfBounds, World.cellKey?,
    alGet, mergeDefaults]

theorem w1_walk_c20 : visW1.isWalkableB 2 0 = false := by
  rw [visW1_eq]
  norm_num +decide [World.isWalkableB, World.getSector, World.outOfBounds, World.cellKey?,
    alGet, mergeDefaults, voidDef]

theorem visV2_eq : visV2 =
    { viewDistance := 2, rayStep := 2 / 5, fovRayCount := 1,
      discovered := [(0, 0)], currentlyVisible := [(0, 0), (1, 0), (2, 0)],
      totalWalkable := 1 } := by
  unfold visV2
  rw [visV1_eq]
  norm_num +decide [Visibility.update, Visibility.castVisibilityRay, Visibility.castVisRayStep,
    Visibility.discStep, testMath, jsPI, range_one, range_five, toNat_five,
    w1_walk_a, w1_walk_b, w1_walk_c, w1_walk_d, w1_walk_c00, w1_walk_c10, w1_walk_c20]

theorem corridorWorld_eq : corridorWorld =
    { width := 4, height := 3, defaultSector := "void",
      grid := [["void", "void", "void", "void"],
        ["floor", "floor", "floor", "floor"],
        ["void", "void", "void", "void"]],
      sectorTypes := [("void", mergeDefaults "void" voidDef),
        ("floor", mergeDefaults "floor" {})],
      regions := [] } := rfl

theorem ratSqrt_one : ratSqrt 1 = 1 := by
  norm_num [ratSqrt, Rat.num_one, Rat.den_one]

theorem co_corridor_21 :
    Movement.canOccupy defaultMoveConfig corridorWorld 2 1 (1 / 5) 0 = false := by
  rw [corridorWorld_eq]
  norm_num +decide [Movement.canOccupy, Movement.occPoint, World.getSector,
    World.outOfBounds, World.cellKey?, alGet, mergeDefaults, voidDef, defaultMoveConfig]

theorem co_corridor_micro :
    Movement.canOccupy defaultMoveConfig corridorWorld (21 / 20) 1 (1 / 5) 0 = false := by
  rw [corridorWorld_eq]
  norm_num +decide [Movement.canOccupy, Movement.occPoint, World.getSector,
    World.outOfBounds, World.cellKey?, alGet, mergeDefaults, voidDef, defaultMoveConfig]

theorem co_corridor_11 :
    Movement.canOccupy defaultMoveConfig corridorWorld 1 1 (1 / 5) 0 = false := by
  rw [corridorWorld_eq]
  norm_num +decide [Movement.canOccupy, Movement.occPoint, World.getSector,
    World.outOfBounds, World.cellKey?, alGet, mergeDefaults, voidDef, defaultMoveConfig]

theorem co_corridor_center :
    Movement.canOccupy defaultMoveConfig corridorWorld (5 / 2) (3 / 2) (1 / 5) 0 = true := by
  rw [corridorWorld_eq]
  norm_num +decide [Movement.canOccupy, Movement.occPoint, World.getSector,
    World.outOfBounds, World.cellKey?, alGet, mergeDefaults, voidDef, defaultMoveConfig]

theorem dmc_defaultRadius : defaultMoveConfig.defaultRadius = 1 / 5 := rfl

theorem dmc_collisionStep : defaultMoveConfig.collisionStep = 1 / 20 := rfl

theorem toNat_twenty : (20 : ℤ).toNat = 20 := rfl

theorem range_twenty : List.range 20 =
    [0, 1, 2, 3, 4, 5, 6, 7, 8, 9, 10, 11, 12, 13, 14, 15, 16, 17, 18, 19] := rfl

theorem mech_move_blocked :
    Movement.move ratSqrt defaultMoveConfig corridorWorld mechEnt 1 0 =
      { x := 1, y := 1, collided := true, slideX := -1, slideY := 0 } := by
  norm_num +decide [Movement.move, Movement.microLoop, Movement.microStep, mechEnt,
    co_corridor_21, co_corridor_micro, co_corridor_11, ratSqrt_one, dmc_defaultRadius,
    dmc_collisionStep, toNat_twenty, range_twenty]

theorem mech_move_center :
    Movement.move ratSqrt defaultMoveConfig corridorWorld mechEntC 1 0 =
      { x := 5 / 2, y := 3 / 2, collided := false, slideX := 0, slideY := 0 } := by
  norm_num +decide [Movement.move, mechEntC, co_corridor_center]

theorem voidWorld_eq : voidWorld =
    { width := 2, height := 2, defaultSector := "void",
      grid := [["void", "void"], ["void", "void"]],
      sectorTypes := [("void", mergeDefaults "void" voidDef)],
      regions := [] } := rfl

theorem cellWorld_eq : cellWorld =
    { width := 1, height := 1, defaultSector := "void",
      grid := [["floor"]],
      sectorTypes := [("void", mergeDefaults "void" voidDef),
        ("floor", mergeDefaults "floor" {})],
      regions := [] } := rfl

theorem co_void_center :
    Movement.canOccupy defaultMoveConfig voidWorld (1 / 2) (1 / 2) (1 / 5) 0 = false := by
  rw [voidWorld_eq]
  norm_num +decide [Movement.canOccupy, Movement.occPoint, World.getSector,
    World.outOfBounds, World.cellKey?, alGet, mergeDefaults, voidDef, defaultMoveConfig]

theorem co_cell_center :
    Movement.canOccupy defaultMoveConfig cellWorld entIn.x entIn.y entIn.radius entIn.z
      = true := by
  rw [cellWorld_eq]
  norm_num +decide [Movement.canOccupy, Movement.occPoint, World.getSector,
    World.outOfBounds, World.cellKey?, alGet, mergeDefaults, defaultMoveConfig, entIn]

theorem move_stuck_eval :
    Movement.move ratSqrt defaultMoveConfig voidWorld entStuck 0 0 =
      { x := 1 / 2, y := 1 / 2, collided := true, slideX := 0, slideY := 0 } := by
  norm_num +decide [Movement.move, entStuck, co_void_center, dmc_defaultRadius]

theorem entA_id : entA.id = 1 := rfl

theorem entA_type : entA.type = "entity" := rfl

theorem entA_x : entA.x = 1 / 2 := rfl

theorem entA_y : entA.y = 1 / 2 := rfl

theorem emA_eq : emA =
    { entities := [(1, entA)], byType := [("entity", [1])],
      spatialHash := [((0, 0), [1])], cellSize := 4 } := by
  norm_num +decide [emA, EManager.add, EManager.empty, EManager.hashAdd, alGet, alSet,
    cellKeyQ, entA_id, entA_type, entA_x, entA_y]

theorem emA_lookup : alGet emA.entities 1 = some entA := by
  rw [emA_eq]
  simp [alGet]

theorem emA_remove_lookup : alGet (emA.remove 1).entities 1 = none := by
  rw [emA_eq]
  norm_num +decide [EManager.remove, alGet, alDel, EManager.hashDel, alSet, cellKeyQ,
    entA_id, entA_type, entA_x, entA_y]

theorem emA_mark_lookup :
    alGet (emA.markRemove 1).entities 1 = some entA.markRemoved := by
  rw [emA_eq]
  simp [EManager.markRemove, alUpdate, alGet]

theorem entB_id : entB.id = 2 := rfl

theorem entB_x : entB.x = 3 := rfl

theorem entB_y : entB.y = 0 := rfl

theorem entB_type : entB.type = "entity" := rfl

theorem emB_eq : emB =
    { entities := [(2, entB)], byType := [("entity", [2])],
      spatialHash := [((0, 0), [2])], cellSize := 4 } := by
  norm_num +decide [emB, EManager.add, EManager.empty, EManager.hashAdd, alGet, alSet,
    cellKeyQ, entB_id, entB_type, entB_x, entB_y]

theorem intRange_neg1_0 : intRange (-1) 0 = [-1, 0] := rfl

theorem emB_getNear : emB.getNear 0 0 3 = [entB] := by
  rw [emB_eq]
  norm_num +decide [EManager.getNear, EManager.nearCells, EManager.nearBucket,
    EManager.nearFilter, intRange_neg1_0, alGet, entB_id, entB_x, entB_y]

theorem entC_id : entC.id = 3 := rfl

theorem entC_x : entC.x = 39 / 10 := rfl

theorem entC_y : entC.y = 0 := rfl

theorem entC_type : entC.type = "entity" := rfl

theorem entD_id : entD.id = 4 := rfl

theorem entD_x : entD.x = 21 / 5 := rfl

theorem entD_y : entD.y = 0 := rfl

theorem entD_type : entD.type = "entity" := rfl

theorem emCD_eq : emCD =
    { entities := [(3, entC), (4, entD)], byType := [("entity", [3, 4])],
      spatialHash := [((0, 0), [3]), ((1, 0), [4])], cellSize := 4 } := by
  norm_num +decide [emCD, EManager.add, EManager.empty, EManager.hashAdd, alGet, alSet,
    cellKeyQ, entC_id, entC_type, entC_x, entC_y, entD_id, entD_type, entD_x, entD_y]

theorem emCD_consistent : emCD.Consistent := by
  rw [emCD_eq]
  unfold EManager.Consistent
  refine ⟨?_, ?_, ?_, ?_⟩
  · intro p hp
    rcases List.mem_cons.mp hp with rfl | hp2
    · exact entC_id
    · rcases List.mem_cons.mp hp2 with rfl | hp3
      · exact entD_id
      · simp at hp3
  · simp
  · intro p hp
    rcases List.mem_cons.mp hp with rfl | hp2
    · norm_num [cellKeyQ, entC_x, entC_y, alGet, Prod.mk.injEq, Prod.ext_iff]
    · rcases List.mem_cons.mp hp2 with rfl | hp3
      · norm_num [cellKeyQ, entD_x, entD_y, alGet, Prod.mk.injEq, Prod.ext_iff]
      · simp at hp3
  · intro q hq id hid
    rcases List.mem_cons.mp hq with rfl | hq2
    · simp only [List.mem_singleton] at hid
      subst hid
      norm_num [alGet, cellKeyQ, entC_x, entC_y, Prod.mk.injEq, Prod.ext_iff]
    · rcases List.mem_cons.mp hq2 with rfl | hq3
      · simp only [List.mem_singleton] at hid
        subst hid
        norm_num [alGet, cellKeyQ, entD_x, entD_y, Prod.mk.injEq, Prod.ext_iff]
      · simp at hq3

theorem canOccupy_radius_idem (cfg : MoveConfig) (w : World) (x y radius z : ℚ) :
    Movement.canOccupy cfg w x y (if radius = 0 then cfg.defaultRadius else radius) z =
      Movement.canOccupy cfg w x y radius z := by
  by_cases h : radius = 0
  · subst h
    simp [Movement.canOccupy, ite_self]
  · rw [if_neg h]

/-- C3 (amended): `move(entity, 0, 0)` is a no-op with `collided =
false` whenever the entity's current position is occupiable (the
original claim, quantified over every position, fails when the start
position is blocked: see the counterexample); and in all cases the
collided flag is true only if no motion at all occurred. -/
theorem move_zero_noop_when_occupiable (sq : ℚ → ℚ) (cfg : MoveConfig) (w : World)
    (e : Movement.MoveEnt) :
    (Movement.canOccupy cfg w e.x e.y e.radius e.z = true →
      Movement.move sq cfg w e 0 0 =
        { x := e.x, y := e.y, collided := false, slideX := 0, slideY := 0 }) ∧
    (∀ dx dy : ℚ, (Movement.move sq cfg w e dx dy).collided = true →
      (Movement.move sq cfg w e dx dy).x = e.x ∧ (Movement.move sq cfg w e dx dy).y = e.y) := by
  constructor
  · intro h
    have hco : Movement.canOccupy cfg w (e.x + 0) (e.y + 0)
        (if e.radius = 0 then cfg.defaultRadius else e.radius) e.z = true := by
      rw [add_zero, add_zero, canOccupy_radius_idem]
      exact h
    dsimp only [Movement.move]
    rw [if_pos hco]
    simp
  · intro dx dy
    generalize hmv : Movement.move sq cfg w e dx dy = r
    intro hcol
    dsimp only [Movement.move] at hmv
    generalize hrr : (if e.radius = 0 then cfg.defaultRadius else e.radius) = rr at hmv
    by_cases c1 : Movement.canOccupy cfg w (e.x + dx) (e.y + dy) rr e.z = true
    · rw [if_pos c1] at hmv
      subst hmv
      simp at hcol
    · rw [if_neg c1] at hmv
      repeat' split at hmv
      all_goals subst hmv
      all_goals simp_all [decide_eq_true_eq]

theorem alGet_alUpdate_self {α : Type} (l : List (ℕ × α)) (key : ℕ)
    (f : α → α) : alGet (alUpdate l key f) key = (alGet l key).map f := by
  induction l with
  | nil => rfl
  | cons p t ih =>
    obtain ⟨a, b⟩ := p
    dsimp only [alUpdate, List.map_cons]
    by_cases hk : a = key
    · rw [if_pos hk]
      dsimp only [alGet]
      rw [if_pos hk, if_pos hk]
      rfl
    · rw [if_neg hk]
      dsimp only [alGet]
      rw [if_neg hk, if_neg hk]
      exact ih

theorem alGet_alUpdate_other {α : Type} (l : List (ℕ × α)) (key k : ℕ) (f : α → α)
    (h : k ≠ key) : alGet (alUpdate l key f) k = alGet l k := by
  induction l with
  | nil => rfl
  | cons p t ih =>
    obtain ⟨a, b⟩ := p
    dsimp only [alUpdate, List.map_cons]
    by_cases hk : a = key
    · rw [if_pos hk]
      dsimp only [alGet]
      have hak : ¬a = k := fun hc => h (hk ▸ hc ▸ rfl)
      rw [if_neg hak, if_neg hak]
      exact ih
    · rw [if_neg hk]
      dsimp only [alGet]
      by_cases hp : a = k
      · rw [if_pos hp, if_pos hp]
      · rw [if_neg hp, if_neg hp]
        exact ih

theorem alGet_alDel_self {κ α : Type} [DecidableEq κ] (l : List (κ × α)) (key : κ) :
    alGet (alDel l key) key = none := by
  induction l with
  | nil => rfl
  | cons p t ih =>
    obtain ⟨a, b⟩ := p
    dsimp only [alDel]
    rw [List.filter_cons]
    by_cases hk : a = key
    · subst hk
      rw [if_neg (by simp)]
      exact ih
    · rw [if_pos (by simp [hk])]
      dsimp only [alGet]
      rw [if_neg hk]
      exact ih

theorem alGet_alDel_other {κ α : Type} [DecidableEq κ] (l : List (κ × α)) (key k : κ)
    (h : k ≠ key) : alGet (alDel l key) k = alGet l k := by
  induction l with
  | nil => rfl
  | cons p t ih =>
    obtain ⟨a, b⟩ := p
    dsimp only [alDel]
    rw [List.filter_cons]
    by_cases hk : a = key
    · subst hk
      rw [if_neg (by simp)]
      dsimp only [alGet]
      have hak : ¬a = k := fun hc => h hc.symm
      rw [if_neg hak]
      exact ih
    · rw [if_pos (by simp [hk])]
      dsimp only [alGet]
      by_cases hp : a = k
      · rw [if_pos hp, if_pos hp]
      · rw [if_neg hp, if_neg hp]
        exact ih

theorem remove_lookup_none (m : EManager) (id : ℕ) :
    alGet (m.remove id).entities id = none := by
  unfold EManager.remove
  cases halg : alGet m.entities id with
  | none => exact halg
  | some e => exact alGet_alDel_self m.entities id

theorem remove_preserves_none (m : EManager) (j id : ℕ)
    (h : alGet m.entities id = none) : alGet (m.remove j).entities id = none := by
  unfold EManager.remove
  cases halg : alGet m.entities j with
  | none => exact h
  | some e =>
    by_cases hij : id = j
    · subst hij
      exact alGet_alDel_self m.entities id
    · rw [alGet_alDel_other m.entities j id hij]
      exact h

theorem purge_removes (ids : List ℕ) (m : EManager) (id : ℕ)
    (h : id ∈ ids ∨ alGet m.entities id = none) :
    alGet ((ids.foldl (fun acc i => acc.remove i) m)).entities id = none := by
  induction ids generalizing m with
  | nil =>
    rcases h with h1 | h1
    · simp at h1
    · exact h1
  | cons j t ih =>
    rw [List.foldl_cons]
    rcases h with h1 | h1
    · rcases List.mem_cons.mp h1 with rfl | h2
      · exact ih _ (Or.inr (remove_lookup_none m id))
      · exact ih _ (Or.inl h2)
    · exact ih _ (Or.inr (remove_preserves_none m j id h1))

theorem markRemove_all_inactive (m : EManager) (id : ℕ) :
    ∀ p ∈ (m.markRemove id).entities, p.1 = id → p.2.active = false := by
  intro p hp hpid
  unfold EManager.markRemove alUpdate at hp
  obtain ⟨q, hq, hpq⟩ := List.mem_map.mp hp
  by_cases hk : q.1 = id
  · rw [if_pos hk] at hpq
    rw [← hpq]
    rfl
  · rw [if_neg hk] at hpq
    rw [← hpq] at hpid
    exact absurd hpid hk

theorem pass1_preserves_inactive (dt : ℚ) (l : List (ℕ × Ent)) (acc : EManager)
    (id : ℕ) (e : Ent) (h : alGet acc.entities id = some e)
    (hl : ∀ p ∈ l, p.1 = id → p.2.active = false) :
    alGet (l.foldl (EManager.updateStep dt) acc).entities id = some e := by
  induction l generalizing acc with
  | nil => exact h
  | cons p t ih =>
    rw [List.foldl_cons]
    refine ih _ ?_ (fun q hq => hl q (List.mem_cons_of_mem p hq))
    unfold EManager.updateStep
    by_cases hact : p.2.active = false
    · rw [if_pos hact]
      exact h
    · rw [if_neg hact]
      have hpid : ¬p.1 = id := by
        intro hc
        exact hact (hl p (List.mem_cons_self p t) hc)
      dsimp only
      by_cases hmv : (p.2.tick dt).x ≠ p.2.x ∨ (p.2.tick dt).y ≠ p.2.y
      · rw [if_pos hmv]
        show alGet (alUpdate acc.entities p.1 (fun _ => p.2.tick dt)) id = some e
        rw [alGet_alUpdate_other acc.entities p.1 id _ (fun hc => hpid hc.symm)]
        exact h
      · rw [if_neg hmv]
        exact h

/-- C5 (amended): an entity marked for removal through its own
`removed` flag (`Entity.remove`) stays in the manager's registry until
the end of the next `update(dt)`, whose final pass purges it; the
original claim that removal is never immediate fails for
`EntityManager.remove`, which deletes at once (see the
counterexample). -/
theorem marked_removal_deferred (m : EManager) (id : ℕ) (e : Ent) (dt : ℚ)
    (h : alGet m.entities id = some e) :
    alGet (m.markRemove id).entities id = some e.markRemoved ∧
    alGet ((m.markRemove id).update dt).entities id = none := by
  have h1 : alGet (m.markRemove id).entities id = some e.markRemoved := by
    unfold EManager.markRemove
    rw [alGet_alUpdate_self, h]
    rfl
  refine ⟨h1, ?_⟩
  unfold EManager.update
  have h2 : alGet ((m.markRemove id).entities.foldl (EManager.updateStep dt)
      (m.markRemove id)).entities id = some e.markRemoved :=
    pass1_preserves_inactive dt _ _ id e.markRemoved h1 (markRemove_all_inactive m id)
  have hmem := alGet_mem h2
  have hid : id ∈ (((m.markRemove id).entities.foldl (EManager.updateStep dt)
      (m.markRemove id)).entities.filter (fun p => p.2.removed)).map Prod.fst := by
    refine List.mem_map.mpr ⟨(id, e.markRemoved), List.mem_filter.mpr ⟨hmem, rfl⟩, rfl⟩
  exact purge_removes _ _ id (Or.inl hid)

/-! ## Helper lemmas: the getNear scan -/

theorem nearFilter_eq_checked (em : EManager) (x y rsq : ℚ) (st : List ℕ × List Ent)
    (id : ℕ) (h : id ∈ st.1) : EManager.nearFilter em x y rsq st id = st := by
  unfold EManager.nearFilter
  rw [if_pos h]

theorem nearFilter_eq_missing (em : EManager) (x y rsq : ℚ) (st : List ℕ × List Ent)
    (id : ℕ) (h : id ∉ st.1) (halg : alGet em.entities id = none) :
    EManager.nearFilter em x y rsq st id = (st.1 ++ [id], st.2) := by
  unfold EManager.nearFilter
  rw [if_neg h, halg]

theorem nearFilter_eq_push (em : EManager) (x y rsq : ℚ) (st : List ℕ × List Ent)
    (id : ℕ) (e : Ent) (h : id ∉ st.1) (halg : alGet em.entities id = some e)
    (hd : (e.x - x) * (e.x - x) + (e.y - y) * (e.y - y) ≤ rsq) :
    EManager.nearFilter em x y rsq st id = (st.1 ++ [id], st.2 ++ [e]) := by
  unfold EManager.nearFilter
  rw [if_neg h, halg]
  dsimp only
  rw [if_pos hd]

theorem nearFilter_eq_far (em : EManager) (x y rsq : ℚ) (st : List ℕ × List Ent)
    (id : ℕ) (e : Ent) (h : id ∉ st.1) (halg : alGet em.entities id = some e)
    (hd : ¬(e.x - x) * (e.x - x) + (e.y - y) * (e.y - y) ≤ rsq) :
    EManager.nearFilter em x y rsq st id = (st.1 ++ [id], st.2) := by
  unfold EManager.nearFilter
  rw [if_neg h, halg]
  dsimp only
  rw [if_neg hd]

theorem nearFilter_checked_sub (em : EManager) (x y rsq : ℚ) (st : List ℕ × List Ent)
    (id : ℕ) : st.1 ⊆ (EManager.nearFilter em x y rsq st id).1 := by
  by_cases h : id ∈ st.1
  · rw [nearFilter_eq_checked em x y rsq st id h]
    exact fun a ha => ha
  · cases halg : alGet em.entities id with
    | none =>
      rw [nearFilter_eq_missing em x y rsq st id h halg]
      exact fun a ha => List.mem_append_left _ ha
    | some e =>
      by_cases hd : (e.x - x) * (e.x - x) + (e.y - y) * (e.y - y) ≤ rsq
      · rw [nearFilter_eq_push em x y rsq st id e h halg hd]
        exact fun a ha => List.mem_append_left _ ha
      · rw [nearFilter_eq_far em x y rsq st id e h halg hd]
        exact fun a ha => List.mem_append_left _ ha

theorem nearFilter_results_sub (em : EManager) (x y rsq : ℚ) (st : List ℕ × List Ent)
    (id : ℕ) : st.2 ⊆ (EManager.nearFilter em x y rsq st id).2 := by
  by_cases h : id ∈ st.1
  · rw [nearFilter_eq_checked em x y rsq st id h]
    exact fun a ha => ha
  · cases halg : alGet em.entities id with
    | none =>
      rw [nearFilter_eq_missing em x y rsq st id h halg]
      exact fun a ha => ha
    | some e =>
      by_cases hd : (e.x - x) * (e.x - x) + (e.y - y) * (e.y - y) ≤ rsq
      · rw [nearFilter_eq_push em x y rsq st id e h halg hd]
        exact fun a ha => List.mem_append_left _ ha
      · rw [nearFilter_eq_far em x y rsq st id e h halg hd]
        exact fun a ha => ha

theorem nearFilter_checked_mem (em : EManager) (x y rsq : ℚ) (st : List ℕ × List Ent)
    (id : ℕ) : id ∈ (EManager.nearFilter em x y rsq st id).1 := by
  by_cases h : id ∈ st.1
  · rw [nearFilter_eq_checked em x y rsq st id h]
    exact h
  · cases halg : alGet em.entities id with
    | none =>
      rw [nearFilter_eq_missing em x y rsq st id h halg]
      exact List.mem_append_right _ (List.mem_singleton.mpr rfl)
    | some e =>
      by_cases hd : (e.x - x) * (e.x - x) + (e.y - y) * (e.y - y) ≤ rsq
      · rw [nearFilter_eq_push em x y rsq st id e h halg hd]
        exact List.mem_append_right _ (List.mem_singleton.mpr rfl)
      · rw [nearFilter_eq_far em x y rsq st id e h halg hd]
        exact List.mem_append_right _ (List.mem_singleton.mpr rfl)

theorem nearFold_checked_sub (em : EManager) (x y rsq : ℚ) (l : List ℕ)
    (st : List ℕ × List Ent) :
    st.1 ⊆ (l.foldl (EManager.nearFilter em x y rsq) st).1 := by
  induction l generalizing st with
  | nil => exact fun a ha => ha
  | cons j t ih =>
    rw [List.foldl_cons]
    exact fun a ha => ih _ (nearFilter_checked_sub em x y rsq st j ha)

theorem nearFold_results_sub (em : EManager) (x y rsq : ℚ) (l : List ℕ)
    (st : List ℕ × List Ent) :
    st.2 ⊆ (l.foldl (EManager.nearFilter em x y rsq) st).2 := by
  induction l generalizing st with
  | nil => exact fun a ha => ha
  | cons j t ih =>
    rw [List.foldl_cons]
    exact fun a ha => ih _ (nearFilter_results_sub em x y rsq st j ha)

theorem nearFold_checked_mem (em : EManager) (x y rsq : ℚ) (l : List ℕ)
    (st : List ℕ × List Ent) (id : ℕ) (h : id ∈ l) :
    id ∈ (l.foldl (EManager.nearFilter em x y rsq) st).1 := by
  induction l generalizing st with
  | nil => simp at h
  | cons j t ih =>
    rw [List.foldl_cons]
    rcases List.mem_cons.mp h with rfl | h2
    · exact nearFold_checked_sub em x y rsq t _ (nearFilter_checked_mem em x y rsq st id)
    · exact ih _ h2

theorem nearCellsFold_checked_sub (em : EManager) (x y rsq : ℚ) (cells : List (ℤ × ℤ))
    (st : List ℕ × List Ent) :
    st.1 ⊆ (cells.foldl (EManager.nearBucket em x y rsq) st).1 := by
  induction cells generalizing st with
  | nil => exact fun a ha => ha
  | cons c t ih =>
    rw [List.foldl_cons]
    exact fun a ha => ih _ (nearFold_checked_sub em x y rsq _ st ha)

theorem nearCellsFold_results_sub (em : EManager) (x y rsq : ℚ) (cells : List (ℤ × ℤ))
    (st : List ℕ × List Ent) :
    st.2 ⊆ (cells.foldl (EManager.nearBucket em x y rsq) st).2 := by
  induction cells generalizing st with
  | nil => exact fun a ha => ha
  | cons c t ih =>
    rw [List.foldl_cons]
    exact fun a ha => ih _ (nearFold_results_sub em x y rsq _ st ha)

theorem nearCellsFold_checked_mem (em : EManager) (x y rsq : ℚ) (cells : List (ℤ × ℤ))
    (st : List ℕ × List Ent) (ck : ℤ × ℤ) (id : ℕ) (hck : ck ∈ cells)
    (hid : id ∈ (alGet em.spatialHash ck).getD []) :
    id ∈ (cells.foldl (EManager.nearBucket em x y rsq) st).1 := by
  induction cells generalizing st with
  | nil => simp at hck
  | cons c t ih =>
    rw [List.foldl_cons]
    rcases List.mem_cons.mp hck with rfl | h2
    · exact nearCellsFold_checked_sub em x y rsq t _
        (nearFold_checked_mem em x y rsq _ st id hid)
    · exact ih _ h2

/-- Invariant of the `getNear` scan: every checked id whose registered
entity lies within the radius already occurs in the results. -/
def NearInv (em : EManager) (x y rsq : ℚ) (st : List ℕ × List Ent) : Prop :=
  ∀ id ∈ st.1, ∀ e : Ent, alGet em.entities id = some e →
    (e.x - x) * (e.x - x) + (e.y - y) * (e.y - y) ≤ rsq → e ∈ st.2

/-- Companion invariant: results are registered in-radius entities,
carry distinct ids, and their ids are all checked. -/
def NearSound (em : EManager) (x y rsq : ℚ) (st : List ℕ × List Ent) : Prop :=
  (∀ e ∈ st.2, alGet em.entities e.id = some e ∧
    (e.x - x) * (e.x - x) + (e.y - y) * (e.y - y) ≤ rsq ∧ e.id ∈ st.1) ∧
  (st.2.map Ent.id).Nodup

theorem nearFilter_inv (em : EManager) (x y rsq : ℚ) (st : List ℕ × List Ent) (id : ℕ)
    (h : NearInv em x y rsq st) :
    NearInv em x y rsq (EManager.nearFilter em x y rsq st id) := by
  by_cases hin : id ∈ st.1
  · rw [nearFilter_eq_checked em x y rsq st id hin]
    exact h
  · cases halg : alGet em.entities id with
    | none =>
      rw [nearFilter_eq_missing em x y rsq st id hin halg]
      intro j hj e he hd
      rcases List.mem_append.mp hj with hj1 | hj1
      · exact h j hj1 e he hd
      · rw [List.mem_singleton.mp hj1] at he
        rw [halg] at he
        cases he
    | some e0 =>
      by_cases hd0 : (e0.x - x) * (e0.x - x) + (e0.y - y) * (e0.y - y) ≤ rsq
      · rw [nearFilter_eq_push em x y rsq st id e0 hin halg hd0]
        intro j hj e he hd
        rcases List.mem_append.mp hj with hj1 | hj1
        · exact List.mem_append_left _ (h j hj1 e he hd)
        · rw [List.mem_singleton.mp hj1] at he
          rw [halg] at he
          cases he
          exact List.mem_append_right _ (List.mem_singleton.mpr rfl)
      · rw [nearFilter_eq_far em x y rsq st id e0 hin halg hd0]
        intro j hj e he hd
        rcases List.mem_append.mp hj with hj1 | hj1
        · exact h j hj1 e he hd
        · rw [List.mem_singleton.mp hj1] at he
          rw [halg] at he
          cases he
          exact absurd hd hd0

theorem nearFilter_sound (em : EManager) (x y rsq : ℚ) (st : List ℕ × List Ent) (id : ℕ)
    (hids : ∀ (j : ℕ) (e : Ent), alGet em.entities j = some e → e.id = j)
    (h : NearSound em x y rsq st) :
    NearSound em x y rsq (EManager.nearFilter em x y rsq st id) := by
  obtain ⟨h1, h2⟩ := h
  by_cases hin : id ∈ st.1
  · rw [nearFilter_eq_checked em x y rsq st id hin]
    exact ⟨h1, h2⟩
  · cases halg : alGet em.entities id with
    | none =>
      rw [nearFilter_eq_missing em x y rsq st id hin halg]
      refine ⟨?_, h2⟩
      intro e he
      obtain ⟨he1, he2, he3⟩ := h1 e he
      exact ⟨he1, he2, List.mem_append_left _ he3⟩
    | some e0 =>
      by_cases hd0 : (e0.x - x) * (e0.x - x) + (e0.y - y) * (e0.y - y) ≤ rsq
      · rw [nearFilter_eq_push em x y rsq st id e0 hin halg hd0]
        have hid0 : e0.id = id := hids id e0 halg
        constructor
        · intro e he
          rcases List.mem_append.mp he with he1 | he1
          · obtain ⟨ha, hb, hc⟩ := h1 e he1
            exact ⟨ha, hb, List.mem_append_left _ hc⟩
          · rw [List.mem_singleton.mp he1]
            rw [hid0]
            exact ⟨halg, hd0, List.mem_append_right _ (List.mem_singleton.mpr rfl)⟩
        · rw [List.map_append]
          refine List.Nodup.append h2 (List.nodup_singleton _) ?_
          intro a ha hb
          simp only [List.map_singleton, List.mem_singleton] at hb
          obtain ⟨e1, he1, he1id⟩ := List.mem_map.mp ha
          obtain ⟨-, -, hc⟩ := h1 e1 he1
          rw [he1id, hb, hid0] at hc
          exact hin hc
      · rw [nearFilter_eq_far em x y rsq st id e0 hin halg hd0]
        refine ⟨?_, h2⟩
        intro e he
        obtain ⟨he1, he2, he3⟩ := h1 e he
        exact ⟨he1, he2, List.mem_append_left _ he3⟩

theorem nearFold_inv (em : EManager) (x y rsq : ℚ) (l : List ℕ)
    (st : List ℕ × List Ent) (h : NearInv em x y rsq st) :
    NearInv em x y rsq (l.foldl (EManager.nearFilter em x y rsq) st) := by
  induction l generalizing st with
  | nil => exact h
  | cons j t ih =>
    rw [List.foldl_cons]
    exact ih _ (nearFilter_inv em x y rsq st j h)

theorem nearFold_sound (em : EManager) (x y rsq : ℚ) (l : List ℕ)
    (st : List ℕ × List Ent)
    (hids : ∀ (j : ℕ) (e : Ent), alGet em.entities j = some e → e.id = j)
    (h : NearSound em x y rsq st) :
    NearSound em x y rsq (l.foldl (EManager.nearFilter em x y rsq) st) := by
  induction l generalizing st with
  | nil => exact h
  | cons j t ih =>
    rw [List.foldl_cons]
    exact ih _ (nearFilter_sound em x y rsq st j hids h)

theorem nearCellsFold_inv (em : EManager) (x y rsq : ℚ) (cells : List (ℤ × ℤ))
    (st : List ℕ × List Ent) (h : NearInv em x y rsq st) :
    NearInv em x y rsq (cells.foldl (EManager.nearBucket em x y rsq) st) := by
  induction cells generalizing st with
  | nil => exact h
  | cons c t ih =>
    rw [List.foldl_cons]
    exact ih _ (nearFold_inv em x y rsq _ st h)

theorem nearCellsFold_sound (em : EManager) (x y rsq : ℚ) (cells : List (ℤ × ℤ))
    (st : List ℕ × List Ent)
    (hids : ∀ (j : ℕ) (e : Ent), alGet em.entities j = some e → e.id = j)
    (h : NearSound em x y rsq st) :
    NearSound em x y rsq (cells.foldl (EManager.nearBucket em x y rsq) st) := by
  induction cells generalizing st with
  | nil => exact h
  | cons c t ih =>
    rw [List.foldl_cons]
    exact ih _ (nearFold_sound em x y rsq _ st hids h)

theorem mem_nearCells (em : EManager) (x y r : ℚ) (cx cy : ℤ) :
    (cx, cy) ∈ EManager.nearCells em x y r ↔
      (⌊(x - r) / em.cellSize⌋ ≤ cx ∧ cx ≤ ⌊(x + r) / em.cellSize⌋) ∧
        (⌊(y - r) / em.cellSize⌋ ≤ cy ∧ cy ≤ ⌊(y + r) / em.cellSize⌋) := by
  unfold EManager.nearCells
  simp only [List.mem_flatMap, List.mem_map, mem_intRange, Prod.mk.injEq]
  constructor
  · rintro ⟨cy', hcy', cx', hcx', rfl, rfl⟩
    exact ⟨hcx', hcy'⟩
  · rintro ⟨hx, hy⟩
    exact ⟨cy, hy, cx, hx, rfl, rfl⟩

theorem near_bucket_bounds (cs x y r ex ey : ℚ) (hcs : 0 < cs) (hr : 0 ≤ r)
    (hd : (ex - x) * (ex - x) + (ey - y) * (ey - y) ≤ r * r) :
    (⌊(x - r) / cs⌋ ≤ ⌊ex / cs⌋ ∧ ⌊ex / cs⌋ ≤ ⌊(x + r) / cs⌋) ∧
      (⌊(y - r) / cs⌋ ≤ ⌊ey / cs⌋ ∧ ⌊ey / cs⌋ ≤ ⌊(y + r) / cs⌋) := by
  have h1 : x - r ≤ ex := by
    nlinarith [mul_self_nonneg (ey - y), mul_self_nonneg (ex - x + r)]
  have h2 : ex ≤ x + r := by
    nlinarith [mul_self_nonneg (ey - y), mul_self_nonneg (ex - x - r)]
  have h3 : y - r ≤ ey := by
    nlinarith [mul_self_nonneg (ex - x), mul_self_nonneg (ey - y + r)]
  have h4 : ey ≤ y + r := by
    nlinarith [mul_self_nonneg (ex - x), mul_self_nonneg (ey - y - r)]
  exact ⟨⟨Int.floor_le_floor ((div_le_div_iff_of_pos_right hcs).mpr h1),
      Int.floor_le_floor ((div_le_div_iff_of_pos_right hcs).mpr h2)⟩,
    Int.floor_le_floor ((div_le_div_iff_of_pos_right hcs).mpr h3),
    Int.floor_le_floor ((div_le_div_iff_of_pos_right hcs).mpr h4)⟩

theorem getNear_eq_fold (em : EManager) (x y r : ℚ) :
    em.getNear x y r =
      ((EManager.nearCells em x y r).foldl (EManager.nearBucket em x y (r * r)) ([], [])).2 :=
  rfl

/-- C4 (amended): under the manager's index-consistency invariant and
for a nonnegative radius, `getNear(x, y, r)` returns exactly the
registered entities whose true squared Euclidean distance from their
center to `(x, y)` is at most `r²` — including entities bucketed in a
different spatial-hash cell than the query point — with no duplicates.
(The original claim's strict `< r` fails: the code compares with `<=`;
see the counterexample.) -/
theorem getNear_exact_within_radius (em : EManager) (x y r : ℚ)
    (hcons : em.Consistent) (hcs : 0 < em.cellSize) (hr : 0 ≤ r) :
    (∀ e : Ent, e ∈ em.getNear x y r ↔
      (e.id, e) ∈ em.entities ∧
        (e.x - x) * (e.x - x) + (e.y - y) * (e.y - y) ≤ r * r) ∧
    ((em.getNear x y r).map Ent.id).Nodup := by
  obtain ⟨hc1, hc2, hc3, hc4⟩ := hcons
  have hids : ∀ (j : ℕ) (e : Ent), alGet em.entities j = some e → e.id = j :=
    fun j e hj => hc1 (j, e) (alGet_mem hj)
  have hsound : NearSound em x y (r * r)
      ((EManager.nearCells em x y r).foldl (EManager.nearBucket em x y (r * r)) ([], [])) := by
    refine nearCellsFold_sound em x y (r * r) _ ([], []) hids ⟨?_, List.nodup_nil⟩
    intro e he
    simp at he
  have hinv : NearInv em x y (r * r)
      ((EManager.nearCells em x y r).foldl (EManager.nearBucket em x y (r * r)) ([], [])) := by
    refine nearCellsFold_inv em x y (r * r) _ ([], []) ?_
    intro id hid
    simp at hid
  constructor
  · intro e
    rw [getNear_eq_fold]
    constructor
    · intro he
      obtain ⟨ha, hb, -⟩ := hsound.1 e he
      exact ⟨hids e.id e ha ▸ alGet_mem ha, hb⟩
    · rintro ⟨hmem, hdist⟩
      have halg : alGet em.entities e.id = some e := alGet_of_mem_nodup hmem hc2
      have hhash := hc3 (e.id, e) hmem
      have hcell : cellKeyQ em.cellSize e.x e.y ∈ EManager.nearCells em x y r := by
        have hb := near_bucket_bounds em.cellSize x y r e.x e.y hcs hr hdist
        exact (mem_nearCells em x y r _ _).mpr ⟨hb.1, hb.2⟩
      have hchk := nearCellsFold_checked_mem em x y (r * r) (EManager.nearCells em x y r)
        ([], []) (cellKeyQ em.cellSize e.x e.y) e.id hcell hhash
      exact hinv e.id hchk e halg hdist
  · rw [getNear_eq_fold]
    exact hsound.2

/-! ## Claim theorems -/

/-- C1: for every coordinate pair, `getSector` returns a sector-type
record and never fails; out of bounds it returns the default sector
type and `isWalkable` is false there; an in-bounds cell whose key is
unregistered also resolves to the default sector type.  The
hypotheses are the documented SectorGrid invariant: a well-formed grid
whose default sector type is registered and non-walkable. -/
theorem getSector_total_default (w : World) (d : SectorType)
    (hd : alGet w.sectorTypes w.defaultSector = some d)
    (hdw : d.walkable = false)
    (hwf : w.wfB = true) :
    (∀ x y : ℚ, (w.getSector x y).isSome = true) ∧
    (∀ x y : ℚ, w.outOfBounds ⌊x⌋ ⌊y⌋ = true →
      w.getSector x y = some d ∧ w.isWalkable x y = some false) ∧
    (∀ (x y : ℚ) (key : String), w.outOfBounds ⌊x⌋ ⌊y⌋ = false →
      w.cellKey? ⌊x⌋ ⌊y⌋ = some key → alGet w.sectorTypes key = none →
      w.getSector x y = some d) := by
  refine ⟨?_, ?_, ?_⟩
  · intro x y
    simp only [World.getSector]
    by_cases hob : w.outOfBounds ⌊x⌋ ⌊y⌋
    · rw [if_pos hob, hd]
      rfl
    · rw [if_neg hob]
      obtain ⟨key, hkey⟩ := wf_cellKey_isSome w hwf ⌊x⌋ ⌊y⌋ (by simpa using hob)
      rw [hkey]
      cases halg : alGet w.sectorTypes key with
      | none => simp [Option.orElse, halg, hd]
      | some s => simp [Option.orElse, halg]
  · intro x y hob
    have hgs : w.getSector x y = some d := by
      simp only [World.getSector]
      rw [if_pos hob]
      exact hd
    refine ⟨hgs, ?_⟩
    unfold World.isWalkable
    rw [hgs, Option.map_some', hdw]
  · intro x y key hob hkey halg
    simp only [World.getSector]
    rw [if_neg (by simp [hob]), hkey]
    simp [Option.orElse, halg, hd]

/-- Witness for C1: the constructor-built world, whose default sector
`"void"` is registered non-walkable, evaluated out of bounds at
`(-1, -1)`. -/
theorem getSector_total_default_witness :
    (World.create 4 3 "void").getSector (-1) (-1) = some (mergeDefaults "void" voidDef) ∧
    (World.create 4 3 "void").isWalkable (-1) (-1) = some false :=
  (getSector_total_default (World.create 4 3 "void") (mergeDefaults "void" voidDef)
    rfl rfl (by decide)).2.1 (-1) (-1)
    (by norm_num [World.outOfBounds, World.create, World.registerSectorType])

/-- C2 (counterexample): the invariant fails under interleaved grid
mutations.  Cell `(1,0)` is seen as a wall in the first update, the
mutation `setSector(1, 0, "floor")` makes it walkable, and the second
update sees it again while it is continuously visible — so the
discovery pass, which only inspects cells absent from the previous
frame's visible set, never adds it: a walkable cell is in
CurrentlyVisible but not in Discovered. -/
theorem visible_walkable_cell_not_discovered :
    (1, 0) ∈ visV2.currentlyVisible ∧ visW1.isWalkableB 1 0 = true ∧
      (1, 0) ∉ visV2.discovered := by
  refine ⟨?_, w1_walk_c10, ?_⟩
  · rw [visV2_eq]
    simp
  · rw [visV2_eq]
    simp

/-- C2 (amended): on a fixed well-formed sector grid (no interleaved
mutations, no reset), after any sequence of updates the Discovered set
contains every walkable cell that has ever appeared in
CurrentlyVisible: any cell visible after a prefix of the updates and
walkable is discovered after the full sequence. -/
theorem discovered_contains_ever_visible (m : JsMath) (w : World) (v0 : Visibility)
    (_hwf : w.wfB = true) (h0 : VisInv w v0) (l1 l2 : List (ℚ × ℚ × ℚ × ℚ)) (k : ℤ × ℤ)
    (h1 : k ∈ (updFold m w v0 l1).currentlyVisible)
    (h2 : w.isWalkableB (k.1 : ℚ) (k.2 : ℚ) = true) :
    k ∈ (updFold m w v0 (l1 ++ l2)).discovered := by
  have hI := updFold_preserves_visInv m w v0 l1 h0
  rw [updFold_append]
  exact updFold_discovered_mono m w _ l2 (hI k h1 h2)

/-- Witness for C2 (amended): the cell `(0,0)` seen by the first update
over the static strip world is discovered after a second update. -/
theorem discovered_contains_ever_visible_witness :
    (0, 0) ∈ (updFold testMath visW0 visV0
      ([((1 : ℚ) / 2, (1 : ℚ) / 2, jsPI, 2 * jsPI)] ++
        [((1 : ℚ) / 2, (1 : ℚ) / 2, jsPI, 2 * jsPI)])).discovered :=
  discovered_contains_ever_visible testMath visW0 visV0 (by decide)
    (by intro k hk; rw [visV0_eq] at hk; simp at hk)
    [((1 : ℚ) / 2, (1 : ℚ) / 2, jsPI, 2 * jsPI)]
    [((1 : ℚ) / 2, (1 : ℚ) / 2, jsPI, 2 * jsPI)] (0, 0)
    (by rw [show updFold testMath visW0 visV0
        [((1 : ℚ) / 2, (1 : ℚ) / 2, jsPI, 2 * jsPI)] = visV1 from rfl, visV1_eq]; simp)
    (by simpa using w0_walk_c00)

/-- C3 (counterexample): for an entity whose current position is not
occupiable (here: standing in an all-void world), `move(entity, 0, 0)`
returns `collided = true`, refuting the unqualified claim that the
collided flag is always false for a zero displacement (the position is
still unchanged). -/
theorem move_zero_blocked_collides :
    (Movement.move ratSqrt defaultMoveConfig voidWorld entStuck 0 0).collided = true ∧
    (Movement.move ratSqrt defaultMoveConfig voidWorld entStuck 0 0).x = entStuck.x ∧
    (Movement.move ratSqrt defaultMoveConfig voidWorld entStuck 0 0).y = entStuck.y := by
  refine ⟨?_, ?_, ?_⟩ <;> (rw [move_stuck_eval]; try rfl)

/-- Witness for C3 (amended): the occupiable center of the one-cell
floor world moves by (0,0) as a no-op without collision. -/
theorem move_zero_noop_witness :
    Movement.move ratSqrt defaultMoveConfig cellWorld entIn 0 0 =
      { x := entIn.x, y := entIn.y, collided := false, slideX := 0, slideY := 0 } :=
  (move_zero_noop_when_occupiable ratSqrt defaultMoveConfig cellWorld entIn).1 co_cell_center

/-- C4 (counterexample): `getNear` uses `<=` on squared distances, not
strict `<`: an entity at distance exactly `r` from the query point is
returned, refuting the claim that exactly the entities with distance
strictly less than `r` are returned. -/
theorem getNear_includes_boundary_distance :
    entB ∈ emB.getNear 0 0 3 ∧
      ¬((entB.x - 0) * (entB.x - 0) + (entB.y - 0) * (entB.y - 0) < 3 * 3) := by
  constructor
  · rw [emB_getNear]
    simp
  · norm_num [entB_x, entB_y]

/-- Witness for C4 (amended): a query from bucket `(1,0)` returns the
entity bucketed at `(0,0)` whose distance is within the radius. -/
theorem getNear_exact_witness :
    entC ∈ emCD.getNear (41 / 10) 0 1 :=
  ((getNear_exact_within_radius emCD (41 / 10) 0 1 emCD_consistent
      (by rw [emCD_eq]; norm_num) (by norm_num)).1 entC).mpr
    ⟨by rw [emCD_eq]; exact List.mem_cons_self _ _, by norm_num [entC_x, entC_y]⟩

/-- C5 (counterexample): `EntityManager.remove` (which also marks the
entity's removed flag) deletes the entity from the registry at once,
with no update pass having run — refuting the claim that removal is
never immediate. -/
theorem manager_remove_is_immediate :
    alGet emA.entities 1 = some entA ∧ alGet (emA.remove 1).entities 1 = none :=
  ⟨emA_lookup, emA_remove_lookup⟩

/-- Witness for C5 (amended): the single tracked entity, once marked,
is still registered, and is gone after `update`. -/
theorem marked_removal_deferred_witness :
    alGet (emA.markRemove 1).entities 1 = some entA.markRemoved ∧
    alGet ((emA.markRemove 1).update 1).entities 1 = none :=
  marked_removal_deferred emA 1 entA 1 emA_lookup

/-- C6: the Discovered set is monotonically non-decreasing across
visibility updates (absent an explicit reset): every cell discovered
before an `update` is still discovered after it. -/
theorem discovered_monotone_update (m : JsMath) (w : World) (v : Visibility)
    (x y angle fov : ℚ) :
    ∀ k ∈ v.discovered, k ∈ (Visibility.update m w v x y angle fov).state.discovered :=
  fun _ hk => update_discovered_mono m w v x y angle fov hk

/-- Witness for C6: a concrete update against the mutated strip world
keeps the already discovered cell `(0,0)`. -/
theorem discovered_monotone_update_witness :
    (0, 0) ∈ (Visibility.update testMath visW1 visV1 (1 / 2) (1 / 2) jsPI
      (2 * jsPI)).state.discovered :=
  discovered_monotone_update testMath visW1 visV1 (1 / 2) (1 / 2) jsPI (2 * jsPI) (0, 0)
    (by rw [visV1_eq]; simp)

/-- C7: serializing a world and deserializing the snapshot into any
world yields identical `getSector` results at every coordinate, in
bounds or out. -/
theorem serialize_roundtrip_getSector (w w2 : World) (x y : ℚ) :
    (w2.deserialize w.serialize).getSector x y = w.getSector x y :=
  rfl

/-- C8 (counterexample): at the literal position `(1,1)` the
radius-0.2 circle overlaps the non-walkable row below the corridor
(sample point `(1.8, 0.8)` lies in cell `(1,0)`), so the commanded
move `(dx, dy) = (1, 0)` collides in place instead of reaching `(2,1)`
with `collided = false`. -/
theorem corridor_corner_move_collides :
    (Movement.move ratSqrt defaultMoveConfig corridorWorld mechEnt 1 0).collided = true ∧
    (Movement.move ratSqrt defaultMoveConfig corridorWorld mechEnt 1 0).x = 1 ∧
    (Movement.move ratSqrt defaultMoveConfig corridorWorld mechEnt 1 0).y = 1 := by
  refine ⟨?_, ?_, ?_⟩ <;> (rw [mech_move_blocked]; try rfl)

/-- C8 (amended): the corridor scenario holds for the cell-centered
start `(1.5, 1.5)`: the radius-0.2 entity moves with `(dx, dy) =
(1, 0)` straight to `(2.5, 1.5)` with `collided = false` and zero
slide. -/
theorem corridor_center_move_straight :
    Movement.move ratSqrt defaultMoveConfig corridorWorld mechEntC 1 0 =
      { x := 5 / 2, y := 3 / 2, collided := false, slideX := 0, slideY := 0 } :=
  mech_move_center

/-- C9: `castRays` returns exactly one hit record per screen column
`i < rayCount` (in order), and every record's corrected distance
equals its raw distance times the cosine of that ray's angular offset
from the view center. -/
theorem castRays_columns_and_fisheye (m : JsMath) (w : World) (v : Visibility)
    (x y angle fov : ℚ) (rayCount : ℕ) :
    (Visibility.castRays m w v x y angle fov rayCount).map Visibility.ColumnHit.column =
      List.range rayCount ∧
    (Visibility.castRays m w v x y angle fov rayCount).map
        (fun c => c.correctedDistance) =
      (Visibility.castRays m w v x y angle fov rayCount).map
        (fun c => c.ray.distance *
          m.cos (((c.column : ℚ) / (rayCount : ℚ) - 1 / 2) * fov)) := by
  constructor
  · unfold Visibility.castRays
    rw [List.map_map]
    show (List.range rayCount).map (fun i => i) = List.range rayCount
    simp
  · unfold Visibility.castRays
    rw [List.map_map, List.map_map]
    apply List.map_congr_left
    intro i hi
    dsimp only [Function.comp]
    have harg : angle + ((i : ℚ) / (rayCount : ℚ) - 1 / 2) * fov - angle =
        ((i : ℚ) / (rayCount : ℚ) - 1 / 2) * fov := by ring
    rw [harg]

/-- C10: a collision radius of exactly `0` (falsy in JS) is replaced
by the solver's configured default radius, both in `canOccupy` and in
`move` on an entity of radius 0; with an empty configuration that
default is `0.2`. -/
theorem zero_radius_uses_default (cfg : MoveConfig) (w : World) :
    (∀ x y z : ℚ,
      Movement.canOccupy cfg w x y 0 z = Movement.canOccupy cfg w x y cfg.defaultRadius z) ∧
    (∀ (sq : ℚ → ℚ) (x y z dx dy : ℚ),
      Movement.move sq cfg w { x := x, y := y, radius := 0, z := z } dx dy =
        Movement.move sq cfg w { x := x, y := y, radius := cfg.defaultRadius, z := z } dx dy) ∧
    defaultMoveConfig.defaultRadius = 1 / 5 := by
  refine ⟨?_, ?_, rfl⟩
  · intro x y z
    rw [← canOccupy_radius_idem cfg w x y 0 z, if_pos rfl]
  · intro sq x y z dx dy
    dsimp only [Movement.move]
    rw [if_pos (rfl : (0 : ℚ) = 0), ite_self]
